import Mathlib

/-!
# media-storage-cataloger: the `rename` command

A shallow embedding of `commands/rename.go`: the canonical filename codec
(`getNewFilename`, `parseFilename`), the date resolution chain (`processExif`,
`parseExifDate`, `parseDateFromFilename`, `parseTimestamp`), the timezone resolver
(`parseTimezone`), the drift validator (`checkDatesTooFar`) and the body of the
callback that `runRename` hands to `filepath.Walk` (`walkFn`).

Conventions of the embedding.

* A Go `string` is the list of its characters (`Str`); file names are taken to be
  valid UTF-8, so that the regular expressions of the source see one `Char` per rune.
* A Go function returning `(value, error)` returns an `Outcome`: `ok value`,
  `error e`, or `panic` when the Go code would abort with a run-time panic
  (index out of range, failed type assertion).
* `time.Time` is the triple of seconds elapsed since 0001-01-01 00:00:00 UTC,
  nanoseconds within the second, and the location; this is the layout the Go runtime
  keeps for a value without monotonic clock reading, which is all this program creates.
  The seconds are an `int64` in Go and an integer here; where the program can make the
  64-bit arithmetic of package time wrap around (`time.Unix` on a large timestamp, and
  the reading of the calendar fields of such a time), the wrap is written out.
* The collaborators the program does not own (the local time zone database,
  `strings.ToLower`, the metadata tool, `os.Rename`) are the fields of `Env`.
* The five regular expressions are written as direct recognisers that return the
  same submatch slice as `FindStringSubmatch` (empty for no match).
-/

namespace Rename

/-! ## Strings, errors, outcomes -/

/-- A Go string. -/
abbrev Str := List Char

/-- The error values the program creates or passes on. -/
inductive Err where
  /-- The package variable `errDateTakenInExifNotFound`. -/
  | errDateTakenInExifNotFound
  /-- The package variable `errDateTakenInOriginalFilenameNotFound`. -/
  | errDateTakenInOriginalFilenameNotFound
  /-- A value made by `errors.New`. -/
  | new (msg : String)
  /-- A `*strconv.NumError` of `strconv.ParseInt`, for a syntax or a range failure. -/
  | numError (input : Str) (outOfRange : Bool)
  /-- An error handed over by a collaborator (metadata tool, file system). -/
  | foreign (msg : String)
  /-- The result of `errors.Wrap cause msg` for a non-nil cause. -/
  | wrap (cause : Err) (msg : String)
  deriving DecidableEq, Repr

/-- The function `errors.Wrap`: nil stays nil. -/
def Err.Wrap (e : Option Err) (msg : String) : Option Err :=
  e.map (fun c => Err.wrap c msg)

/-- The function `errors.Cause`: strips the wrappers. -/
def Err.Cause : Err → Err
  | .wrap c _ => Err.Cause c
  | e => e

/-- What a call of a Go function ends with. -/
inductive Outcome (α : Type) where
  | ok (a : α)
  | error (e : Err)
  | panic
  deriving DecidableEq, Repr

/-- Sequencing: an error or a panic ends the computation. -/
def Outcome.bind {α β : Type} (x : Outcome α) (f : α → Outcome β) : Outcome β :=
  match x with
  | .ok a => f a
  | .error e => .error e
  | .panic => .panic

/-- Rewrapping of the error of an outcome, as `errors.Wrap(err, msg)` on the error path. -/
def Outcome.wrapErr {α : Type} (x : Outcome α) (msg : String) : Outcome α :=
  match x with
  | .error e => .error (Err.wrap e msg)
  | o => o

/-- Indexing of a slice of strings, with the run-time panic of Go when out of range. -/
def index (xs : List Str) (i : Nat) : Outcome Str :=
  match xs.get? i with
  | some x => .ok x
  | none => .panic

/-! ## strconv.ParseInt and fmt verbs -/

/-- An ASCII decimal digit, the class `\d` of the regular expressions. -/
def isDigit (c : Char) : Bool := decide (48 ≤ c.toNat ∧ c.toNat ≤ 57)

/-- The class `[A-Za-z0-9]`. -/
def isAlnum (c : Char) : Bool :=
  decide ((65 ≤ c.toNat ∧ c.toNat ≤ 90) ∨ (97 ≤ c.toNat ∧ c.toNat ≤ 122)) || isDigit c

/-- The value of a run of decimal digits. -/
def digitsVal (s : Str) : Nat :=
  s.foldl (fun acc c => 10 * acc + (c.toNat - 48)) 0

/-- The text of `s` after its optional sign. -/
def unsigned : Str → Str
  | '+' :: t => t
  | '-' :: t => t
  | s => s

/-- Whether `s` starts with a minus sign. -/
def negative : Str → Bool
  | '-' :: _ => true
  | _ => false

/-- The function `strconv.ParseInt(s, 10, bitSize)`: an optional sign, then one or
more decimal digits, the value within the signed range of `bitSize` bits. -/
def ParseInt (s : Str) (bitSize : Nat) : Except Err Int :=
  let body := unsigned s
  let neg := negative s
  if body = [] ∨ body.all isDigit = false then .error (Err.numError s false)
  else
    let un := digitsVal body
    let cutoff := 2 ^ (bitSize - 1)
    if 2 ^ 64 ≤ un then .error (Err.numError s true)
    else if neg = false ∧ cutoff ≤ un then .error (Err.numError s true)
    else if neg = true ∧ cutoff < un then .error (Err.numError s true)
    else .ok (if neg = true then -(un : Int) else (un : Int))

/-- The verb `%d` of `fmt` on an integer. -/
def fmtD (x : Int) : Str :=
  if x < 0 then '-' :: Nat.toDigits 10 x.natAbs else Nat.toDigits 10 x.natAbs

/-- The verb `%02d` of `fmt` on an integer: zero padding to width two, the sign counted
in the width. -/
def fmt02d (x : Int) : Str :=
  if x < 0 then '-' :: Nat.toDigits 10 x.natAbs
  else if x < 10 then '0' :: Nat.toDigits 10 x.natAbs
  else Nat.toDigits 10 x.natAbs

/-! ## The package time -/

/-- A `*time.Location`: UTC, the local zone of the machine, or a zone made by
`time.FixedZone name offset` (offset in seconds east of UTC). -/
inductive Location where
  | utc
  | localZone
  | fixed (name : Str) (offset : Int)
  deriving DecidableEq, Repr

/-- A `time.Time` without monotonic reading. -/
structure Time where
  /-- Seconds since 0001-01-01 00:00:00 UTC. -/
  sec : Int
  /-- Nanoseconds within the second. -/
  nsec : Int
  loc : Location
  deriving DecidableEq, Repr

/-- The zero value `time.Time{}`. -/
def Time.zero : Time := ⟨0, 0, .utc⟩

/-- Seconds from 0001-01-01 to 1970-01-01 (`unixToInternal`). -/
def unixToInternal : Int := 62135596800

/-- Seconds from the start of the absolute era of package time, the year -292277022399,
to 0001-01-01 (`internalToAbsolute`): 730692556 cycles of 400 years. -/
def internalToAbsolute : Int := 9223371966579724800

/-- The value of an arithmetic expression of type `int64`: Go wraps around at the ends
of the range. -/
def wrap64 (x : Int) : Int :=
  (x + 9223372036854775808) % 18446744073709551616 - 9223372036854775808

/-- A value of type `interface{}` in the field map of the metadata tool: a string, or
anything else (number, boolean, list). -/
inductive TagValue where
  | str (s : Str)
  | other
  deriving DecidableEq, Repr

/-- One record of `ExtractMetadata`: the field map and the per-file error. -/
structure FileMetadata where
  Fields : List (Str × TagValue)
  Err : Option Err

/-- The collaborators of the program. -/
structure Env where
  /-- Offset in seconds east of UTC that the local zone has at a Unix time. -/
  localOffset : Int → Int
  /-- The function `strings.ToLower`. -/
  ToLower : Str → Str
  /-- The method `exifTool.ExtractMetadata` on one path. -/
  ExtractMetadata : Str → List FileMetadata
  /-- The function `os.Rename`. -/
  Rename : Str → Str → Option Err

/-- Offset in seconds east of UTC of a location at a Unix time (`Location.lookup`). -/
def Location.offsetAt (env : Env) (loc : Location) (unix : Int) : Int :=
  match loc with
  | .utc => 0
  | .localZone => env.localOffset unix
  | .fixed _ offset => offset

/-- The method `unixSec`: seconds since 1970-01-01 00:00:00 UTC, an `int64` sum. -/
def Time.unixSec (t : Time) : Int := wrap64 (t.sec - unixToInternal)

/-- The sum that the method `abs` makes: the wall clock of `t` in its location, in
seconds since 0001-01-01 00:00:00 of that wall clock. The method counts it from the
start of the absolute era and converts it to `uint64`; that last step is `Time.wall`. -/
def Time.abs (env : Env) (t : Time) : Int :=
  t.sec + t.loc.offsetAt env t.unixSec

/-- The result of the method `abs`, counted from 0001-01-01 instead of the start of
the absolute era: the method ends with the conversion of its sum to `uint64`, which
reduces it modulo `2 ^ 64`. This moves a wall clock that lies before the absolute era,
as that of a `sec` within 70275051008 seconds of the least `int64`, forward by `2 ^ 64`
seconds. A `sec` outside the range of `int64` is the field of no value of Go and is
left as it is. -/
def Time.wall (env : Env) (t : Time) : Int :=
  if -9223372036854775808 ≤ t.sec ∧ t.sec ≤ 9223372036854775807 then
    (t.abs env + internalToAbsolute) % 18446744073709551616 - internalToAbsolute
  else t.abs env

/-- The function `isLeap`. -/
def isLeap (year : Int) : Bool :=
  year % 4 == 0 && (year % 100 != 0 || year % 400 == 0)

/-- The table `daysBefore`: days of a non-leap year before the month of index `m + 1`. -/
def daysBefore (m : Int) : Int :=
  match m.toNat with
  | 0 => 0
  | 1 => 31
  | 2 => 59
  | 3 => 90
  | 4 => 120
  | 5 => 151
  | 6 => 181
  | 7 => 212
  | 8 => 243
  | 9 => 273
  | 10 => 304
  | 11 => 334
  | _ => 365

/-- The first half of the function `absDate`: the year and the day within the year
(from 0) of a count of days since 0001-01-01, by cycles of 400, 100, 4 and 1 years. -/
def absYearDay (d : Int) : Int × Int :=
  let n := d / 146097
  let y := 400 * n
  let d := d - 146097 * n
  let n := d / 36524
  let n := n - n / 4
  let y := y + 100 * n
  let d := d - 36524 * n
  let n := d / 1461
  let y := y + 4 * n
  let d := d - 1461 * n
  let n := d / 365
  let n := n - n / 4
  let y := y + n
  let d := d - 365 * n
  (y + 1, d)

/-- The second half of the function `absDate`: the month and the day of the month of
the day `yday` of a year. -/
def monthDay (year yday : Int) : Int × Int :=
  if isLeap year = true ∧ yday = 31 + 29 - 1 then (2, 29)
  else
    let day := if isLeap year = true ∧ yday > 31 + 29 - 1 then yday - 1 else yday
    let month := day / 31
    let e := daysBefore (month + 1)
    if day ≥ e then (month + 1 + 1, day - e + 1)
    else (month + 1, day - daysBefore month + 1)

/-- The function `absDate`: year, month and day of a count of seconds since
0001-01-01 00:00:00. -/
def absDate (abs : Int) : Int × Int × Int :=
  let yd := absYearDay (abs / 86400)
  (yd.1, monthDay yd.1 yd.2)

/-- The method `Year`. -/
def Time.Year (env : Env) (t : Time) : Int := (absDate (t.wall env)).1

/-- The method `Month`. -/
def Time.Month (env : Env) (t : Time) : Int := (absDate (t.wall env)).2.1

/-- The method `Day`. -/
def Time.Day (env : Env) (t : Time) : Int := (absDate (t.wall env)).2.2

/-- The method `Hour`. -/
def Time.Hour (env : Env) (t : Time) : Int := t.wall env % 86400 / 3600

/-- The method `Minute`. -/
def Time.Minute (env : Env) (t : Time) : Int := t.wall env % 3600 / 60

/-- The method `Second`. -/
def Time.Second (env : Env) (t : Time) : Int := t.wall env % 60

/-- The function `norm` of package time: `lo` brought into `[0, base)`, the carry
moved into `hi`. -/
def norm (hi lo base : Int) : Int × Int :=
  let n1 := if lo < 0 then (-lo - 1) / base + 1 else 0
  let hi := hi - n1
  let lo := lo + n1 * base
  let n2 := if lo ≥ base then lo / base else 0
  (hi + n2, lo - n2 * base)

/-- The function `daysSinceEpoch`, counted from 0001-01-01. -/
def daysSinceEpoch (year : Int) : Int :=
  let y := year - 1
  let n := y / 400
  let y := y - 400 * n
  let d := 146097 * n
  let n := y / 100
  let y := y - 100 * n
  let d := d + 36524 * n
  let n := y / 4
  let y := y - 4 * n
  let d := d + 1461 * n
  d + 365 * y

/-- The function `time.Date`: fields out of range are normalised, the wall clock is read
in `loc`. -/
def Date (env : Env) (year month day hour min sec nsec : Int) (loc : Location) : Time :=
  let m := month - 1
  let ym := norm year m 12
  let year := ym.1
  let month := ym.2 + 1
  let sn := norm sec nsec 1000000000
  let ms := norm min sn.1 60
  let hm := norm hour ms.1 60
  let dh := norm day hm.1 24
  let d := daysSinceEpoch year + daysBefore (month - 1)
    + (if isLeap year = true ∧ month ≥ 3 then 1 else 0) + (dh.1 - 1)
  let abs := d * 86400 + (dh.2 * 3600 + hm.2 * 60 + ms.2)
  let unix := abs - unixToInternal
  let offset := loc.offsetAt env unix
  let offset := if offset ≠ 0 then loc.offsetAt env (unix - offset) else offset
  ⟨unix - offset + unixToInternal, sn.2, loc⟩

/-- The function `time.Unix`: a time in the local zone. The seconds are moved to the
epoch 0001-01-01 by an `int64` sum, which wraps around for a `sec` above
9223371974719179007. -/
def Unix (sec nsec : Int) : Time :=
  let sn := norm sec nsec 1000000000
  ⟨wrap64 (sn.1 + unixToInternal), sn.2, .localZone⟩

/-- The method `In`: the same instant, read in another location. -/
def Time.In (t : Time) (loc : Location) : Time := { t with loc := loc }

/-- The constant `minDuration`. -/
def minDuration : Int := -(2 ^ 63)

/-- The constant `maxDuration`. -/
def maxDuration : Int := 2 ^ 63 - 1

/-- The method `Sub`: the difference of the instants in nanoseconds, saturating at the
ends of the range of `time.Duration`. -/
def Time.Sub (t u : Time) : Int :=
  let d := (t.sec - u.sec) * 1000000000 + (t.nsec - u.nsec)
  if d < minDuration then minDuration
  else if maxDuration < d then maxDuration
  else d

/-- The method `Duration.Milliseconds`: whole milliseconds, truncated toward zero. -/
def Milliseconds (d : Int) : Int := Int.tdiv d 1000000

/-- The conversion `float64(x)` of a 64-bit integer, as the integer the resulting float
denotes: exact below `2 ^ 53` in magnitude, otherwise rounded to 53 significant bits,
to nearest, ties to even. -/
def float64 (x : Int) : Int :=
  let a := x.natAbs
  if a < 2 ^ 53 then x
  else
    let e := Nat.log2 a - 52
    let q := a / 2 ^ e
    let r := a % 2 ^ e
    let half := 2 ^ (e - 1)
    let q := if half < r ∨ (r = half ∧ q % 2 = 1) then q + 1 else q
    Int.sign x * ((q * 2 ^ e : Nat) : Int)

/-! ## The regular expressions -/

/-- The pattern `\d{n}` at the head of `s`: the digits and what follows them. -/
def digitsN : Nat → Str → Option (Str × Str)
  | 0, s => some ([], s)
  | _ + 1, [] => none
  | n + 1, c :: s =>
    if isDigit c = true then (digitsN n s).map (fun p => (c :: p.1, p.2)) else none

/-- A literal character at the head of `s`: what follows it. -/
def lit (c : Char) : Str → Option Str
  | [] => none
  | d :: s => if d = c then some s else none

/-- The group `(\d{2}|xy)` at the head of `s`. -/
def secGroup (s : Str) : Option (Str × Str) :=
  (digitsN 2 s).orElse fun _ =>
    match s with
    | 'x' :: 'y' :: t => some (['x', 'y'], t)
    | _ => none

/-- The end of `formattedFilenameRep`, the pattern `\((.*)\)$` with the space before it:
the text of the last group. The dot does not match a line feed, and `$` is the end of
the text, so the closing parenthesis is the last character. -/
def originalFilenameGroup (s : Str) : Option Str :=
  (lit ' ' s).bind fun s1 =>
  (lit '(' s1).bind fun s2 =>
    if s2.getLast? = some ')' ∧ s2.dropLast.all (fun c => c != '\n') = true
    then some s2.dropLast else none

/-- A piece of a pattern without alternatives: the group `(\d{n})` or a literal
character. -/
inductive Piece where
  | digits (n : Nat)
  | char (c : Char)

/-- A sequence of pieces matched at the head of `s`: the texts of the groups, in order,
and what follows the match. -/
def matchPieces : List Piece → Str → Option (List Str × Str)
  | [], s => some ([], s)
  | .digits n :: ps, s =>
    (digitsN n s).bind fun d => (matchPieces ps d.2).map fun r => (d.1 :: r.1, r.2)
  | .char c :: ps, s => (lit c s).bind fun t => matchPieces ps t

/-- The pattern `(\d{4})S(\d{2})S(\d{2}) (\d{2})S(\d{2})S` that `formattedFilenameRep`
(with a dot for `S`) and `exifDateRep` (with a colon) start with. -/
def datePieces (sep : Char) : List Piece :=
  [.digits 4, .char sep, .digits 2, .char sep, .digits 2, .char ' ',
   .digits 2, .char sep, .digits 2, .char sep]

/-- The regular expression `formattedFilenameRep`
`^(\d{4})\.(\d{2})\.(\d{2}) (\d{2})\.(\d{2})\.(\d{2}|xy)(\.[A-Za-z0-9]+)? \((.*)\)$`
as `FindStringSubmatch`: the whole match and the eight groups, or the empty slice.
The optional seventh group is tried first with its longest run of letters and digits
(a shorter run is followed by a letter or digit, never by the space the pattern wants
next), then skipped. -/
def formattedFilenameRep (s : Str) : List Str :=
  let m : Option (List Str) :=
    (matchPieces (datePieces '.') s).bind fun date =>
    (secGroup date.2).bind fun sec =>
      ((lit '.' sec.2).bind fun s6 =>
        let run := s6.takeWhile isAlnum
        if run = [] then none
        else (originalFilenameGroup (s6.dropWhile isAlnum)).map fun orig =>
          s :: date.1 ++ [sec.1, '.' :: run, orig]).orElse fun _ =>
      (originalFilenameGroup sec.2).map fun orig =>
        s :: date.1 ++ [sec.1, [], orig]
  m.getD []

/-- The pattern `.?` followed by the continuation `k`: first with one character other
than a line feed, then with none. -/
def optAny {α : Type} (k : Str → Option α) (s : Str) : Option α :=
  (match s with
    | c :: t => if c != '\n' then k t else none
    | [] => none).orElse fun _ => k s

/-- The regular expression `dateInFilenameRep`
`(\d{4}).?(\d{2}).?(\d{2}).?(\d{2}).?(\d{2}).?(\d{2})` matched at the head of `s`:
the six groups. -/
def dateInFilenameAt (s : Str) : Option (List Str) :=
  (digitsN 4 s).bind fun year =>
  optAny (fun s1 => (digitsN 2 s1).bind fun month =>
  optAny (fun s2 => (digitsN 2 s2).bind fun day =>
  optAny (fun s3 => (digitsN 2 s3).bind fun hour =>
  optAny (fun s4 => (digitsN 2 s4).bind fun min =>
  optAny (fun s5 => (digitsN 2 s5).map fun sec =>
    [year.1, month.1, day.1, hour.1, min.1, sec.1]) min.2) hour.2) day.2) month.2) year.2

/-- The regular expression `dateInFilenameRep` as `FindStringSubmatch`: the leftmost
match. The text of the whole match is not used by the program and is left empty. -/
def dateInFilenameRep : Str → List Str
  | [] => []
  | c :: t =>
    match dateInFilenameAt (c :: t) with
    | some groups => [] :: groups
    | none => dateInFilenameRep t

/-- The regular expression `timezoneRep`, `^([+-])?(\d{2}):(\d{2})?$`, as
`FindStringSubmatch`. -/
def timezoneRep (s : Str) : List Str :=
  let sign : Str × Str := match s with
    | '+' :: t => (['+'], t)
    | '-' :: t => (['-'], t)
    | _ => ([], s)
  let m : Option (List Str) :=
    (digitsN 2 sign.2).bind fun hour =>
    (lit ':' hour.2).bind fun s1 =>
      ((digitsN 2 s1).bind fun min =>
        if min.2 = [] then some [s, sign.1, hour.1, min.1] else none).orElse fun _ =>
      if s1 = [] then some [s, sign.1, hour.1, []] else none
  m.getD []

/-- The end of `exifDateRep`:
`((\+|-)(\d{2}):(\d{2}))?$`, the groups 9 to 12. -/
def exifZoneGroup (s : Str) : Option (List Str) :=
  ((match s with
    | '+' :: t => some (['+'], t)
    | '-' :: t => some (['-'], t)
    | _ => none).bind fun (sign : Str × Str) =>
    (digitsN 2 sign.2).bind fun hour =>
    (lit ':' hour.2).bind fun s1 =>
    (digitsN 2 s1).bind fun min =>
      if min.2 = [] then some [s, sign.1, hour.1, min.1] else none).orElse fun _ =>
  if s = [] then some [[], [], [], []] else none

/-- The regular expression `exifDateRep`
`^(\d{4}):(\d{2}):(\d{2}) (\d{2}):(\d{2}):(\d{2})(\.(\d{2}))?((\+|-)(\d{2}):(\d{2}))?$`
as `FindStringSubmatch`: the whole match and the twelve groups. -/
def exifDateRep (s : Str) : List Str :=
  let m : Option (List Str) :=
    (matchPieces (datePieces ':' ++ [.digits 2]) s).bind fun date =>
      ((lit '.' date.2).bind fun s6 =>
        (digitsN 2 s6).bind fun msec =>
        (exifZoneGroup msec.2).map fun zone =>
          s :: date.1 ++ ['.' :: msec.1, msec.1] ++ zone).orElse fun _ =>
      (exifZoneGroup date.2).map fun zone =>
        s :: date.1 ++ [[], []] ++ zone
  m.getD []

/-- The literal `timestamp=` at the head of `s`, then the longest run of digits, which
must not be empty: the group of `commentTimestampRep`. -/
def commentTimestampAt (s : Str) : Option Str :=
  if "timestamp=".toList.isPrefixOf s = true then
    let run := (s.drop 10).takeWhile isDigit
    if run = [] then none else some run
  else none

/-- The regular expression `commentTimestampRep`, `timestamp=(\d+)`, as
`FindStringSubmatch`: the leftmost match. -/
def commentTimestampRep : Str → List Str
  | [] => []
  | c :: t =>
    match commentTimestampAt (c :: t) with
    | some run => ["timestamp=".toList ++ run, run]
    | none => commentTimestampRep t

/-! ## The functions of rename.go -/

/-- The map `supportedExts`. -/
def supportedExts : List Str :=
  ["heic".toList, "jpeg".toList, "jpg".toList, "gif".toList, "png".toList,
   "3gp".toList, "m4v".toList, "mov".toList, "mp4".toList, "mpg".toList, "mpo".toList]

/-- The constant `actionPrint`. -/
def actionPrint : Str := "print".toList

/-- The constant `actionExecute`. -/
def actionExecute : Str := "execute".toList

/-- The constant `timezoneSourceMedia`. -/
def timezoneSourceMedia : Str := "media".toList

/-- The constant `timezoneSourceCustom`. -/
def timezoneSourceCustom : Str := "custom".toList

/-- A call of `strconv.ParseInt` whose error is wrapped with `msg`. -/
def parseField (s : Str) (bitSize : Nat) (msg : String) : Outcome Int :=
  match ParseInt s bitSize with
  | .ok v => .ok v
  | .error e => .error (Err.wrap e msg)

/-- The function `parseTimezone`. -/
def parseTimezone (timezoneString : Str) : Outcome Location :=
  let timezoneSubmatch := timezoneRep timezoneString
  (index timezoneSubmatch 1).bind fun signString =>
  (parseField (signString ++ ['1']) 32 "parse timezoneSign").bind fun timezoneSign =>
  (index timezoneSubmatch 2).bind fun hourString =>
  (parseField hourString 32 "parse timezoneHour").bind fun timezoneHour =>
  (index timezoneSubmatch 3).bind fun minString =>
  (parseField minString 32 "parse timezoneHour").bind fun timezoneMin =>
    .ok (Location.fixed timezoneString (timezoneSign * timezoneHour * 60 * timezoneMin))

/-- The function `parseDate`. -/
def parseDate (env : Env)
    (yearString monthString dayString hourString minString secString msecString
      timezoneString : Str) : Outcome Time :=
  (parseField yearString 32 "parse year").bind fun year =>
  (parseField monthString 32 "parse month").bind fun month =>
  (parseField dayString 32 "parse day").bind fun day =>
  (parseField hourString 32 "parse hour").bind fun hour =>
  (parseField minString 32 "parse min").bind fun min =>
  (parseField secString 32 "parse sec").bind fun sec =>
  (if msecString.length > 0 then parseField msecString 32 "parse msec"
    else .ok 0).bind fun msec =>
  (if timezoneString.length > 0 then (parseTimezone timezoneString).wrapErr "parseTimezone()"
    else .ok Location.utc).bind fun timezone =>
    .ok (Date env year month day hour min sec (msec * 1000) timezone)

/-- The function `findFirstTag`: the value of the first tag of `tags` present in the
map, asserted to be a string; the empty string when none is present. -/
def findFirstTag (fields : List (Str × TagValue)) : List Str → Outcome Str
  | [] => .ok []
  | tag :: tags =>
    match fields.lookup tag with
    | some (.str v) => .ok v
    | some .other => .panic
    | none => findFirstTag fields tags

/-- The function `parseExifDate`. Both `msecString` and `timezoneString` are read from
submatch 8. -/
def parseExifDate (env : Env) (dateString : Str) (tags : List (Str × TagValue)) :
    Outcome Time :=
  let dateSubmatch := exifDateRep dateString
  (index dateSubmatch 1).bind fun yearString =>
  (index dateSubmatch 2).bind fun monthString =>
  (index dateSubmatch 3).bind fun dayString =>
  (index dateSubmatch 4).bind fun hourString =>
  (index dateSubmatch 5).bind fun minString =>
  (index dateSubmatch 6).bind fun secString =>
  (index dateSubmatch 8).bind fun msecString =>
  (index dateSubmatch 8).bind fun timezoneString =>
  (if timezoneString.length = 0 then
      findFirstTag tags
        ["OffsetTimeOriginal".toList, "OffsetTimeDigitized".toList, "OffsetTime".toList]
    else .ok timezoneString).bind fun timezoneString =>
    (parseDate env yearString monthString dayString hourString minString secString
      msecString timezoneString).wrapErr "parseDate()"

/-- The function `parseDateFromFilename`. -/
def parseDateFromFilename (env : Env) (filename : Str) : Outcome Time :=
  let dateSubmatch := dateInFilenameRep filename
  if dateSubmatch.length = 0 then
    .error (Err.wrap Err.errDateTakenInOriginalFilenameNotFound
      "commands/rename->parseDateFromFilename(): FindStringSubmatch()")
  else
    (index dateSubmatch 1).bind fun yearString =>
    (index dateSubmatch 2).bind fun monthString =>
    (index dateSubmatch 3).bind fun dayString =>
    (index dateSubmatch 4).bind fun hourString =>
    (index dateSubmatch 5).bind fun minString =>
    (index dateSubmatch 6).bind fun secString =>
      (parseDate env yearString monthString dayString hourString minString secString
        [] []).wrapErr "parseDateFromFilename()"

/-- The function `parseTimestamp`: without a match the zero time and no error. -/
def parseTimestamp (timestampString : Str) : Outcome Time :=
  let timestampSubmatch := commentTimestampRep timestampString
  if timestampSubmatch.length = 2 then
    (index timestampSubmatch 1).bind fun s =>
    (parseField s 64 "ParseInt()").bind fun secs =>
      .ok (Unix secs 0)
  else .ok Time.zero

/-- The function `getNewFilename`, the format
`"%d.%02d.%02d %02d.%02d.%02d.%s (%s)"`. -/
def getNewFilename (env : Env) (dateTaken : Time) (dateSource originalFilename : Str) :
    Str :=
  fmtD (dateTaken.Year env) ++ ['.'] ++ fmt02d (dateTaken.Month env) ++ ['.']
    ++ fmt02d (dateTaken.Day env) ++ [' '] ++ fmt02d (dateTaken.Hour env) ++ ['.']
    ++ fmt02d (dateTaken.Minute env) ++ ['.'] ++ fmt02d (dateTaken.Second env) ++ ['.']
    ++ dateSource ++ [' ', '('] ++ originalFilename ++ [')']

/-- The function `parseFilename`: the original file name and the date of the name. -/
def parseFilename (env : Env) (filename : Str) : Outcome (Str × Time) :=
  let originalFilenameSubmatch := formattedFilenameRep filename
  if originalFilenameSubmatch.length = 0 then .ok (filename, Time.zero)
  else
    (index originalFilenameSubmatch 1).bind fun yearString =>
    (index originalFilenameSubmatch 2).bind fun monthString =>
    (index originalFilenameSubmatch 3).bind fun dayString =>
    (index originalFilenameSubmatch 4).bind fun hourString =>
    (index originalFilenameSubmatch 5).bind fun minString =>
    (index originalFilenameSubmatch 6).bind fun secString =>
    let secString := if secString = ['x', 'y'] then ['0', '0'] else secString
    (index originalFilenameSubmatch 8).bind fun originalFilename =>
    (parseDate env yearString monthString dayString hourString minString secString
      [] []).bind fun date =>
      .ok (originalFilename, date)

/-- The function `processExif`. -/
def processExif (env : Env) (path : Str) : Outcome Time :=
  match env.ExtractMetadata path with
  | [fileInfo] =>
    match fileInfo.Err with
    | some e => .error (Err.wrap e "commands/rename->processExif(): fileInfo.Err")
    | none =>
      (findFirstTag fileInfo.Fields
        ["CreateDate".toList, "DateTimeOriginal".toList, "CreationDate".toList,
         "MediaCreateDate".toList]).bind fun accurateDateValue =>
      if accurateDateValue.length > 0 then
        (parseExifDate env accurateDateValue fileInfo.Fields).wrapErr "parseExifDate()"
      else
        match fileInfo.Fields.lookup "Comment".toList with
        | some (.str comment) => (parseTimestamp comment).wrapErr "parseTimestamp()"
        | some .other => .panic
        | none => .error Err.errDateTakenInExifNotFound
  | _ => .error (Err.new "len(fileInfos) != 1")

/-- The function `checkDatesTooFar`: the comparison is made on `float64` values. -/
def checkDatesTooFar (distance : Int) (maxDatesDistanceMilliseconds : Int) : Bool :=
  let change := |float64 (Milliseconds distance)|
  if change > float64 maxDatesDistanceMilliseconds then true else false

/-! ## The callback of filepath.Walk -/

/-- The function `filepath.Split`: the path up to and with its last slash, and the rest. -/
def Split (path : Str) : Str × Str :=
  let r := path.reverse
  ((r.dropWhile (fun c => c != '/')).reverse, (r.takeWhile (fun c => c != '/')).reverse)

/-- The function `filepath.Ext`: the suffix that starts at the last dot of the last
element of the path, empty when that element has no dot. -/
def Ext (path : Str) : Str :=
  let r := path.reverse
  let tail := r.takeWhile (fun c => c != '.' && c != '/')
  match r.drop tail.length with
  | '.' :: _ => '.' :: tail.reverse
  | _ => []

/-- The function `strings.TrimSuffix`. -/
def TrimSuffix (s suffix : Str) : Str :=
  if suffix.isSuffixOf s = true then s.take (s.length - suffix.length) else s

/-- The call `strings.TrimLeft(s, ".")`. -/
def TrimLeftDots (s : Str) : Str := s.dropWhile (fun c => c == '.')

/-- The part of `os.FileInfo` the callback reads. -/
structure FileInfo where
  IsDir : Bool
  ModTime : Time

/-- The values `runRename` reads from the flags before the walk. -/
structure Config where
  timezoneSource : Str
  /-- The result of `parseTimezone` on the flag `timezoneCustom`. -/
  timezoneCustom : Location
  maxDatesDistanceInMilliseconds : Int
  action : Str

/-- The five counters of `runRename`. -/
structure Counters where
  totalFilesFound : Nat
  totalMediaFound : Nat
  totalMediaOkFilenames : Nat
  totalMediaWarnings : Nat
  totalMediaActions : Nat
  deriving DecidableEq, Repr

/-- What the callback writes to the standard output, one item per `fmt.Print` call. -/
inductive Out where
  /-- The line `"%s - ok filename\n"`. -/
  | okFilename (filenameWithExt : Str)
  /-- The text `"%s => %s"`. -/
  | arrow (filenameWithExt newFilenameWithExt : Str)
  /-- The text `" - %v"` with the distance between the new and the old date. -/
  | distance (d : Int)
  /-- The line `" - Warning: Old date and new date are too far, skipping"`. -/
  | warning
  /-- The text `", printing"`. -/
  | printing
  /-- The text `", renaming"`. -/
  | renaming
  /-- The final line feed. -/
  | newline
  deriving DecidableEq, Repr

/-- The rename decision of the specification, one per return site of the callback. -/
inductive Decision where
  /-- The return after the lookup in `supportedExts`. -/
  | skipUnsupported
  /-- The return after `filename == newFilename`. -/
  | alreadyCorrect
  /-- The return after the warning. -/
  | warnDriftSkip
  /-- The case `actionPrint` of the switch. -/
  | printOnly
  /-- The case `actionExecute` of the switch. -/
  | execute
  deriving DecidableEq, Repr

/-- The effects of one call of the callback that returns: the counters after the call,
the output, the call of `os.Rename` made (old path, new path), the error returned, and
the decision when the call reached one. -/
structure Step where
  counters : Counters
  out : List Out
  renamed : Option (Str × Str)
  err : Option Err
  decision : Option Decision
  deriving DecidableEq, Repr

/-- One call of the callback: it returns, or the program aborts with a panic. -/
inductive WalkResult where
  | returned (s : Step)
  | panicked
  deriving DecidableEq, Repr

/-- The lines of the callback that apply the custom timezone: the date is moved into
`timezoneCustom` and the source `dmz` becomes `dm`. -/
def applyTimezone (cfg : Config) (dateTaken : Time) (dateSource : Str) : Time × Str :=
  if cfg.timezoneSource = timezoneSourceCustom then
    (dateTaken.In cfg.timezoneCustom,
      if dateSource = "dmz".toList then "dm".toList else dateSource)
  else (dateTaken, dateSource)

/-- The lines of the callback from `dateSource := "dt"` to the custom timezone: the
date taken and its source, from the metadata, else from the original file name, else
from the modification time. -/
def resolveDate (env : Env) (cfg : Config) (curFilepath originalFilename : Str)
    (curFileInfo : FileInfo) : Outcome (Time × Str) :=
  match processExif env curFilepath with
  | .panic => .panic
  | .ok dateTaken => .ok (applyTimezone cfg dateTaken "dt".toList)
  | .error e =>
    if e ≠ Err.errDateTakenInExifNotFound then .error (Err.wrap e "processExif()")
    else
      match parseDateFromFilename env originalFilename with
      | .panic => .panic
      | .ok dateTaken => .ok (applyTimezone cfg dateTaken "dn".toList)
      | .error e2 =>
        if Err.Cause e2 ≠ Err.errDateTakenInOriginalFilenameNotFound then
          .error (Err.wrap e2 "parseDateFromFilename()")
        else .ok (applyTimezone cfg curFileInfo.ModTime "dmz".toList)

/-- The lines of the callback from `getNewFilename` to its end: the comparison of the
names, the drift check against the date of the old name, and the action. -/
def renameEntry (env : Env) (cfg : Config) (c : Counters)
    (curFilepath dir filenameWithExt filename ext originalFilename : Str)
    (oldDateTaken dateTaken : Time) (dateSource : Str) : Step :=
  let newFilename := getNewFilename env dateTaken dateSource originalFilename
  if filename = newFilename then
    { counters := { c with totalMediaOkFilenames := c.totalMediaOkFilenames + 1 },
      out := [Out.okFilename filenameWithExt], renamed := none, err := none,
      decision := some Decision.alreadyCorrect }
  else
    let newFilenameWithExt := newFilename ++ ['.'] ++ ext
    let newFilepath := dir ++ newFilenameWithExt
    let out := [Out.arrow filenameWithExt newFilenameWithExt]
    let distance := dateTaken.Sub oldDateTaken
    let checked := decide (oldDateTaken ≠ Time.zero)
    let out := if checked = true then out ++ [Out.distance distance] else out
    let datesTooFar :=
      if checked = true then checkDatesTooFar distance cfg.maxDatesDistanceInMilliseconds
      else false
    if datesTooFar = true then
      { counters := { c with totalMediaWarnings := c.totalMediaWarnings + 1 },
        out := out ++ [Out.warning], renamed := none, err := none,
        decision := some Decision.warnDriftSkip }
    else
      let c := { c with totalMediaActions := c.totalMediaActions + 1 }
      if cfg.action = actionPrint then
        { counters := c, out := out ++ [Out.printing, Out.newline], renamed := none,
          err := none, decision := some Decision.printOnly }
      else if cfg.action = actionExecute then
        match env.Rename curFilepath newFilepath with
        | some e =>
          { counters := c, out := out ++ [Out.renaming],
            renamed := some (curFilepath, newFilepath),
            err := some (Err.wrap e "os.Rename()"), decision := some Decision.execute }
        | none =>
          { counters := c, out := out ++ [Out.renaming, Out.newline],
            renamed := some (curFilepath, newFilepath), err := none,
            decision := some Decision.execute }
      else
        { counters := c, out := out ++ [Out.newline], renamed := none, err := none,
          decision := none }

/-- The callback `runRename` passes to `filepath.Walk`, on one entry of the walk, with
the counters as the state. -/
def walkFn (env : Env) (cfg : Config) (c : Counters) (curFilepath : Str)
    (curFileInfo : FileInfo) (err : Option Err) : WalkResult :=
  match err with
  | some e =>
    .returned { counters := c, out := [], renamed := none,
                err := some (Err.wrap e "err"), decision := none }
  | none =>
    if curFileInfo.IsDir = true then
      .returned { counters := c, out := [], renamed := none, err := none, decision := none }
    else
      let c := { c with totalFilesFound := c.totalFilesFound + 1 }
      let dir := (Split curFilepath).1
      let filenameWithExt := (Split curFilepath).2
      let extOriginal := Ext filenameWithExt
      let filename := TrimSuffix filenameWithExt extOriginal
      let ext := env.ToLower (TrimLeftDots extOriginal)
      match parseFilename env filename with
      | .panic => .panicked
      | .error e =>
        .returned { counters := c, out := [], renamed := none,
                    err := some (Err.wrap e "parseFilename()"), decision := none }
      | .ok (originalFilename, oldDateTaken) =>
        if supportedExts.contains ext = false then
          .returned { counters := c, out := [], renamed := none, err := none,
                      decision := some Decision.skipUnsupported }
        else
          let c := { c with totalMediaFound := c.totalMediaFound + 1 }
          match resolveDate env cfg curFilepath originalFilename curFileInfo with
          | .panic => .panicked
          | .error e =>
            .returned { counters := c, out := [], renamed := none, err := some e,
                        decision := none }
          | .ok (dateTaken, dateSource) =>
            .returned (renameEntry env cfg c curFilepath dir filenameWithExt filename ext
              originalFilename oldDateTaken dateTaken dateSource)

/-! ## The command -/

/-- The map `actions`. -/
def actions : List Str := [actionPrint, actionExecute]

/-- The map `timezoneSources`. -/
def timezoneSources : List Str := [timezoneSourceMedia, timezoneSourceCustom]

/-- The values of the four flags of the command; the flags are declared with these
types by `GetRenameCommand`, so that reading them does not fail. -/
structure Flags where
  timezoneSource : Str
  timezoneCustom : Str
  /-- The flag `maxDatesDistance`, a `time.Duration` in nanoseconds. -/
  maxDatesDistance : Int
  action : Str

/-- One call of the callback by `filepath.Walk`: the path, the file information, and
the error of the walk for that path. -/
structure Entry where
  path : Str
  info : FileInfo
  err : Option Err

/-- The collaborators of one run of the command: the error of `NewExiftool`, the error
of `exifTool.Close`, and the entries that `filepath.Walk` visits, in order. -/
structure Session where
  NewExiftool : Option Err
  Close : Option Err
  entries : List Entry

/-- What the callbacks of a walk have done so far. -/
structure WalkState where
  counters : Counters
  out : List Out
  renamed : List (Str × Str)
  deriving DecidableEq, Repr

/-- How `filepath.Walk` ends: it returns the first error a callback returned (nil when
none did), or a callback panics. -/
inductive WalkOutcome where
  | finished (st : WalkState) (err : Option Err)
  | panicked
  deriving DecidableEq, Repr

/-- The function `filepath.Walk` with the callback of `runRename`: the entries are
handed over in order until a callback returns an error. -/
def Walk (env : Env) (cfg : Config) (st : WalkState) : List Entry → WalkOutcome
  | [] => .finished st none
  | e :: es =>
    match walkFn env cfg st.counters e.path e.info e.err with
    | .panicked => .panicked
    | .returned step =>
      let st2 : WalkState :=
        { counters := step.counters, out := st.out ++ step.out,
          renamed := st.renamed ++ step.renamed.toList }
      match step.err with
      | some err => .finished st2 (some err)
      | none => Walk env cfg st2 es

/-- How `runRename` ends: it returns its error (nil for success), with the state of
the walk when the walk was made, or the program aborts with a panic. -/
inductive RunResult where
  | returned (err : Option Err) (walked : Option WalkState)
  | panicked
  deriving DecidableEq, Repr

/-- The function `runRename`. The deferred function closes the metadata tool once the
tool is open, and puts the error of `Close` in the named result `err`. -/
def runRename (env : Env) (ses : Session) (flags : Flags) : RunResult :=
  if timezoneSources.contains flags.timezoneSource = false then
    .returned (some (Err.new "unknown timezoneSource")) none
  else
    match parseTimezone flags.timezoneCustom with
    | .panic => .panicked
    | .error e =>
      .returned (some (Err.wrap e
        "commands/rename->runRename(): parseTimezone(timezoneCustomString)")) none
    | .ok timezoneCustom =>
      if actions.contains flags.action = false then
        .returned (some (Err.new "unknown action")) none
      else
        let cfg : Config :=
          { timezoneSource := flags.timezoneSource, timezoneCustom := timezoneCustom,
            maxDatesDistanceInMilliseconds := Milliseconds flags.maxDatesDistance,
            action := flags.action }
        match ses.NewExiftool with
        | some e => .returned (some (Err.wrap e "NewExiftool()")) none
        | none =>
          match Walk env cfg ⟨⟨0, 0, 0, 0, 0⟩, [], []⟩ ses.entries with
          | .panicked => .panicked
          | .finished st err =>
            let err := Err.Wrap err "filepath.Walk()"
            match ses.Close with
            | some closeErr =>
              .returned (some (Err.wrap closeErr "exifTool.Close()")) (some st)
            | none => .returned err (some st)

/-- The groups `.?(\d{2})` of `dateInFilenameRep`, `n` times. -/
def fieldsAfter : Nat → Str → Option (List Str)
  | 0, _ => some []
  | n + 1, s =>
    optAny (fun t => (digitsN 2 t).bind fun f => (fieldsAfter n f.2).map fun r => f.1 :: r) s

/-! ## Vocabulary of the statements -/

/-- A run of exactly `n` decimal digits. -/
def Digits (n : Nat) (ds : Str) : Prop :=
  ds.length = n ∧ ∀ c ∈ ds, isDigit c = true

instance instDecidableDigits (n : Nat) (ds : Str) : Decidable (Digits n ds) :=
  inferInstanceAs (Decidable (ds.length = n ∧ ∀ c ∈ ds, isDigit c = true))

/-- The optional date source of a canonical name: nothing, or a dot and one or more
letters and digits. -/
def IsTag (tag : Str) : Prop :=
  tag = [] ∨ ∃ run : Str, run ≠ [] ∧ (∀ c ∈ run, isAlnum c = true) ∧ tag = '.' :: run

/-- The text `YYYY.MM.DD HH.MM.SS[.tag] (name)` put together from its parts. -/
def canonicalName (year month day hour min sec tag name : Str) : Str :=
  year ++ '.' :: (month ++ '.' :: (day ++ ' ' :: (hour ++ '.' :: (min ++ '.' ::
    (sec ++ (tag ++ ' ' :: '(' :: (name ++ [')'])))))))

/-! ## Sample collaborators -/

/-- A machine whose local zone is UTC, whose metadata tool answers `records` for every
path and whose renames succeed; `ToLower` lowers the ASCII letters. -/
def sampleEnv (records : List FileMetadata) : Env :=
  { localOffset := fun _ => 0
    ToLower := fun s => s.map Char.toLower
    ExtractMetadata := fun _ => records
    Rename := fun _ _ => none }

/-- The flags left at their defaults but for the action: timezone source `media`, custom
timezone `00:00`, a largest distance of 26 hours. -/
def sampleConfig (action : Str) : Config :=
  { timezoneSource := timezoneSourceMedia
    timezoneCustom := Location.fixed "00:00".toList 0
    maxDatesDistanceInMilliseconds := 93600000
    action := action }

/-- The counters before the walk. -/
def zeroCounters : Counters := ⟨0, 0, 0, 0, 0⟩

/-- A regular file last modified at the Unix time 1700000000. -/
def sampleFileInfo : FileInfo := { IsDir := false, ModTime := Unix 1700000000 0 }

/-- One metadata record with the single tag `DateTimeOriginal`. -/
def dateTimeOriginal (value : Str) : List FileMetadata :=
  [{ Fields := [("DateTimeOriginal".toList, TagValue.str value)], Err := none }]

/-- The same machine in a local zone three hours east of UTC. -/
def sampleEnvEast (records : List FileMetadata) : Env :=
  { sampleEnv records with localOffset := fun _ => 10800 }

/-- One metadata record without error and with the given fields. -/
def oneRecord (fields : List (Str × TagValue)) : List FileMetadata :=
  [{ Fields := fields, Err := none }]

/-- The flags left at their defaults but for the custom timezone. -/
def sampleFlags (timezoneCustom : Str) : Flags :=
  { timezoneSource := timezoneSourceMedia, timezoneCustom := timezoneCustom,
    maxDatesDistance := 93600000000000, action := actionPrint }

/-- The number of decimal digits in a text. -/
def digitCount (s : Str) : Nat := s.countP isDigit

/-- A separator between two fields of a date in a file name: nothing, or one character
that is neither a digit nor a line feed. -/
def IsSeparator (sep : Str) : Prop :=
  sep = [] ∨ ∃ c : Char, sep = [c] ∧ isDigit c = false ∧ c ≠ '\n'

/-! ## The drift validator -/

theorem float64_of_small (x : Int) (h : x.natAbs < 2 ^ 53) : float64 x = x := by
  unfold float64
  simp only [h, if_true]

theorem float64_of_large (x : Int) (h : 2 ^ 53 ≤ x.natAbs) :
    ∃ N : Nat, 2 ^ 53 ≤ N ∧ float64 x = Int.sign x * (N : Int) := by
  unfold float64
  have hne : x.natAbs ≠ 0 := by
    intro h0
    rw [h0] at h
    norm_num at h
  have hlog : 53 ≤ Nat.log2 x.natAbs := (Nat.le_log2 hne).mpr h
  have hpow : 2 ^ Nat.log2 x.natAbs ≤ x.natAbs := Nat.log2_self_le hne
  obtain ⟨e, he⟩ : ∃ e, Nat.log2 x.natAbs = e + 53 := ⟨Nat.log2 x.natAbs - 53, by omega⟩
  have he1 : Nat.log2 x.natAbs - 52 = e + 1 := by omega
  have hq : 2 ^ 52 ≤ x.natAbs / 2 ^ (e + 1) := by
    rw [Nat.le_div_iff_mul_le (by positivity)]
    calc 2 ^ 52 * 2 ^ (e + 1) = 2 ^ (e + 53) := by ring
      _ ≤ x.natAbs := by rw [← he]; exact hpow
  have h2e : 2 ≤ 2 ^ (e + 1) := by
    calc 2 = 2 ^ 1 := by norm_num
      _ ≤ 2 ^ (e + 1) := Nat.pow_le_pow_right (by norm_num) (by omega)
  have hnot : ¬ x.natAbs < 2 ^ 53 := by omega
  have key : ∀ q : Nat, x.natAbs / 2 ^ (e + 1) ≤ q → 2 ^ 53 ≤ q * 2 ^ (e + 1) := by
    intro q hq2
    calc 2 ^ 53 = 2 ^ 52 * 2 := by norm_num
      _ ≤ q * 2 ^ (e + 1) := Nat.mul_le_mul (le_trans hq hq2) h2e
  simp only [hnot, if_false, he1]
  refine ⟨_, ?_, rfl⟩
  split
  · exact key _ (Nat.le_succ _)
  · exact key _ (le_refl _)

theorem float64_ge (x : Int) (h : 2 ^ 53 ≤ x) : 2 ^ 53 ≤ float64 x := by
  obtain ⟨N, hN, hf⟩ := float64_of_large x (by omega)
  rw [hf, Int.sign_eq_one_of_pos (by omega)]
  omega

theorem float64_le (x : Int) (h : x ≤ -(2 ^ 53)) : float64 x ≤ -(2 ^ 53) := by
  obtain ⟨N, hN, hf⟩ := float64_of_large x (by omega)
  rw [hf, Int.sign_eq_neg_one_of_neg (by omega)]
  omega

theorem Milliseconds_bound (d : Int) (hlo : minDuration ≤ d) (hhi : d ≤ maxDuration) :
    |Milliseconds d| < 2 ^ 53 := by
  unfold minDuration at hlo
  unfold maxDuration at hhi
  unfold Milliseconds
  rcases le_total 0 d with h | h
  · rw [Int.tdiv_eq_ediv h (by norm_num), abs_of_nonneg (by omega)]
    omega
  · have h2 : Int.tdiv d 1000000 = -((-d) / 1000000) := by
      rw [← Int.tdiv_eq_ediv (by omega) (by norm_num), Int.neg_tdiv, neg_neg]
    rw [h2, abs_neg, abs_of_nonneg (by omega)]
    omega

theorem Milliseconds_neg (d : Int) : Milliseconds (-d) = -Milliseconds d := by
  unfold Milliseconds
  exact Int.neg_tdiv d 1000000

theorem checkDatesTooFar_eq (d thr : Int) (hlo : minDuration ≤ d) (hhi : d ≤ maxDuration) :
    checkDatesTooFar d thr = decide (thr < |Milliseconds d|) := by
  have hb := Milliseconds_bound d hlo hhi
  have hs : float64 (Milliseconds d) = Milliseconds d :=
    float64_of_small _ (by
      have := abs_lt.mp hb
      omega)
  unfold checkDatesTooFar
  simp only [hs]
  by_cases h1 : 2 ^ 53 ≤ thr
  · have := float64_ge thr h1
    have h3 : ¬ (|Milliseconds d| > float64 thr) := by omega
    have h4 : ¬ (thr < |Milliseconds d|) := by omega
    simp [h3, h4]
  · by_cases h2 : thr ≤ -(2 ^ 53)
    · have := float64_le thr h2
      have hnn := abs_nonneg (Milliseconds d)
      have h3 : |Milliseconds d| > float64 thr := by omega
      have h4 : thr < |Milliseconds d| := by omega
      simp [h3, h4]
    · rw [float64_of_small thr (by omega)]
      by_cases h5 : thr < |Milliseconds d| <;> simp [h5]

/-- C5. For every distance in the range of `time.Duration` and every threshold,
`checkDatesTooFar` answers true exactly when the absolute value of the whole number of
milliseconds of the distance exceeds the threshold; the answer for the negated distance
is the same, and a distance whose milliseconds equal the threshold in absolute value is
not flagged. -/
theorem checkDatesTooFar_spec (distance thr : Int)
    (hlo : minDuration ≤ distance) (hhi : distance ≤ maxDuration) :
    (checkDatesTooFar distance thr = true ↔ thr < |Milliseconds distance|)
    ∧ checkDatesTooFar (-distance) thr = checkDatesTooFar distance thr
    ∧ (|Milliseconds distance| = thr → checkDatesTooFar distance thr = false) := by
  have h := checkDatesTooFar_eq distance thr hlo hhi
  refine ⟨by simp [h], ?_, fun he => by simp [h, he]⟩
  rcases eq_or_lt_of_le hlo with hmin | hlt
  · have hb : |Milliseconds distance| < 2 ^ 53 := Milliseconds_bound distance hlo hhi
    have hs : float64 (Milliseconds distance) = Milliseconds distance :=
      float64_of_small _ (by
        have := abs_lt.mp hb
        omega)
    unfold checkDatesTooFar
    rw [Milliseconds_neg, hs, float64_of_small (-Milliseconds distance) (by
      have := abs_lt.mp hb
      omega), abs_neg]
  · have hlo2 : minDuration ≤ -distance := by
      unfold minDuration maxDuration at *
      omega
    have hhi2 : -distance ≤ maxDuration := by
      unfold minDuration maxDuration at *
      omega
    rw [checkDatesTooFar_eq (-distance) thr hlo2 hhi2, h, Milliseconds_neg, abs_neg]

/-- C5, witness: 26 hours and one millisecond against a threshold of 26 hours. -/
theorem checkDatesTooFar_spec_witness :
    minDuration ≤ 93600001000000 ∧ (93600001000000 : Int) ≤ maxDuration
    ∧ (checkDatesTooFar 93600001000000 93600000 = true
        ↔ 93600000 < |Milliseconds 93600001000000|)
    ∧ checkDatesTooFar (-93600001000000) 93600000 = checkDatesTooFar 93600001000000 93600000
    ∧ (|Milliseconds 93600001000000| = 93600000 →
        checkDatesTooFar 93600001000000 93600000 = false) :=
  ⟨by decide, by decide, checkDatesTooFar_spec 93600001000000 93600000 (by decide) (by decide)⟩

/-! ## Digits and `ParseInt` -/

theorem isDigit_iff (c : Char) : isDigit c = true ↔ 48 ≤ c.toNat ∧ c.toNat ≤ 57 := by
  simp [isDigit]

theorem digitsN_append (n : Nat) (ds r : Str) (h : Digits n ds) :
    digitsN n (ds ++ r) = some (ds, r) := by
  induction n generalizing ds with
  | zero =>
    obtain ⟨hl, _⟩ := h
    have : ds = [] := List.length_eq_zero.mp hl
    subst this
    rfl
  | succ n ih =>
    obtain ⟨hl, hd⟩ := h
    match ds, hl, hd with
    | c :: t, hl, hd =>
      have hc : isDigit c = true := hd c (List.mem_cons_self _ _)
      have ht : Digits n t := ⟨by simpa using hl, fun x hx => hd x (List.mem_cons_of_mem _ hx)⟩
      simp [digitsN, hc, ih t ht]

theorem digitsN_some (n : Nat) (s : Str) (p : Str × Str) (h : digitsN n s = some p) :
    s = p.1 ++ p.2 ∧ Digits n p.1 := by
  induction n generalizing s p with
  | zero =>
    simp only [digitsN, Option.some.injEq] at h
    subst h
    exact ⟨rfl, rfl, fun c hc => by simp at hc⟩
  | succ n ih =>
    match s with
    | [] => simp [digitsN] at h
    | c :: t =>
      simp only [digitsN] at h
      split at h
      · rename_i hc
        cases hq : digitsN n t with
        | none => simp [hq] at h
        | some q =>
          simp only [hq, Option.map_some', Option.some.injEq] at h
          subst h
          obtain ⟨h1, h2, h3⟩ := ih t q hq
          refine ⟨by simp [← h1], by simp [h2], ?_⟩
          intro x hx
          rcases List.mem_cons.mp hx with rfl | hx
          · exact hc
          · exact h3 x hx
      · simp at h

theorem digitsVal_foldl_bound (ds : Str) (hd : ∀ c ∈ ds, isDigit c = true) (acc : Nat) :
    ds.foldl (fun a c => 10 * a + (c.toNat - 48)) acc + 1 ≤ (acc + 1) * 10 ^ ds.length := by
  induction ds generalizing acc with
  | nil => simp
  | cons c t ih =>
    have hc := (isDigit_iff c).mp (hd c (List.mem_cons_self _ _))
    have := ih (fun x hx => hd x (List.mem_cons_of_mem _ hx)) (10 * acc + (c.toNat - 48))
    simp only [List.foldl_cons, List.length_cons]
    calc _ ≤ (10 * acc + (c.toNat - 48) + 1) * 10 ^ t.length := this
      _ ≤ (10 * (acc + 1)) * 10 ^ t.length := Nat.mul_le_mul_right _ (by omega)
      _ = (acc + 1) * 10 ^ (t.length + 1) := by ring

theorem digitsVal_lt (n : Nat) (ds : Str) (h : Digits n ds) : digitsVal ds < 10 ^ n := by
  have := digitsVal_foldl_bound ds h.2 0
  rw [h.1] at this
  unfold digitsVal
  omega

theorem unsigned_of_digit (c : Char) (t : Str) (hc : isDigit c = true) :
    unsigned (c :: t) = c :: t ∧ negative (c :: t) = false := by
  have hc2 := (isDigit_iff c).mp hc
  have hp : c ≠ '+' := by
    rintro rfl
    revert hc2
    decide
  have hm : c ≠ '-' := by
    rintro rfl
    revert hc2
    decide
  constructor
  · unfold unsigned
    split
    · rename_i heq
      exact absurd (List.cons.inj heq).1 hp
    · rename_i heq
      exact absurd (List.cons.inj heq).1 hm
    · rfl
  · unfold negative
    split
    · rename_i heq
      exact absurd (List.cons.inj heq).1 hm
    · rfl

theorem ParseInt_digits (n : Nat) (ds : Str) (h : Digits n ds) (h0 : 0 < n) (h9 : n ≤ 9) :
    ParseInt ds 32 = .ok (digitsVal ds : Int) := by
  have hlt := digitsVal_lt n ds h
  have hpow : 10 ^ n ≤ 10 ^ 9 := Nat.pow_le_pow_right (by norm_num) h9
  obtain ⟨hl, hd⟩ := h
  cases ds with
  | nil =>
    simp at hl
    omega
  | cons c t =>
    obtain ⟨hbody, hneg⟩ := unsigned_of_digit c t (hd c (List.mem_cons_self _ _))
    have hall : (c :: t).all isDigit = true := by
      rw [List.all_eq_true]
      exact hd
    unfold ParseInt
    simp only [hbody, hneg, hall]
    have h1 : ¬ (18446744073709551616 ≤ digitsVal (c :: t)) := by omega
    have h2 : ¬ (2147483648 ≤ digitsVal (c :: t)) := by omega
    simp [h1, h2]

theorem parseField_digits (n : Nat) (ds : Str) (msg : String) (h : Digits n ds)
    (h0 : 0 < n) (h9 : n ≤ 9) : parseField ds 32 msg = .ok (digitsVal ds : Int) := by
  unfold parseField
  rw [ParseInt_digits n ds h h0 h9]

/-! ## The canonical pattern -/

theorem lit_cons (c : Char) (s : Str) : lit c (c :: s) = some s := by
  simp [lit]

theorem lit_some (c : Char) (s r : Str) (h : lit c s = some r) : s = c :: r := by
  cases s with
  | nil => simp [lit] at h
  | cons d t =>
    simp only [lit] at h
    split at h
    · rename_i hd
      simp only [Option.some.injEq] at h
      rw [hd, h]
    · simp at h

theorem secGroup_some (s : Str) (p : Str × Str) (h : secGroup s = some p) :
    s = p.1 ++ p.2 ∧ (Digits 2 p.1 ∨ p.1 = ['x', 'y']) := by
  unfold secGroup at h
  cases hd : digitsN 2 s with
  | some q =>
    rw [hd] at h
    simp only [Option.orElse, Option.some.injEq] at h
    subst h
    obtain ⟨h1, h2⟩ := digitsN_some 2 s q hd
    exact ⟨h1, Or.inl h2⟩
  | none =>
    rw [hd] at h
    simp only [Option.orElse] at h
    split at h
    · simp only [Option.some.injEq] at h
      subst h
      exact ⟨rfl, Or.inr rfl⟩
    · simp at h

theorem datePieces_some (sep : Char) (s : Str) (r : List Str × Str)
    (h : matchPieces (datePieces sep) s = some r) :
    ∃ year month day hour min, r.1 = [year, month, day, hour, min]
      ∧ Digits 4 year ∧ Digits 2 month ∧ Digits 2 day ∧ Digits 2 hour ∧ Digits 2 min := by
  simp only [datePieces, matchPieces, Option.bind_eq_some, Option.map_eq_some'] at h
  obtain ⟨year, hy, r1, ⟨s1, -, month, hmo, r2, ⟨s2, -, day, hd, r3, ⟨s3, -, hour, hh, r4,
    ⟨s4, -, min, hmi, r5, ⟨s5, -, h5⟩, h4⟩, h3⟩, h2⟩, h1⟩, h0⟩ := h
  simp only [Option.some.injEq] at h5
  subst h5 h4 h3 h2 h1 h0
  exact ⟨_, _, _, _, _, rfl, (digitsN_some _ _ _ hy).2, (digitsN_some _ _ _ hmo).2,
    (digitsN_some _ _ _ hd).2, (digitsN_some _ _ _ hh).2, (digitsN_some _ _ _ hmi).2⟩

theorem datePieces_append (sep : Char) (year month day hour min rest : Str)
    (hy : Digits 4 year) (hmo : Digits 2 month) (hd : Digits 2 day) (hh : Digits 2 hour)
    (hmi : Digits 2 min) :
    matchPieces (datePieces sep)
        (year ++ sep :: (month ++ sep :: (day ++ ' ' :: (hour ++ sep :: (min ++ sep :: rest)))))
      = some ([year, month, day, hour, min], rest) := by
  simp only [datePieces, matchPieces, digitsN_append 4 year _ hy,
    digitsN_append 2 month _ hmo, digitsN_append 2 day _ hd, digitsN_append 2 hour _ hh,
    digitsN_append 2 min _ hmi, lit_cons, Option.some_bind, Option.map_some']

theorem formattedFilenameRep_shape (s : Str) :
    formattedFilenameRep s = [] ∨
    ∃ year month day hour min sec tag orig,
      formattedFilenameRep s = [s, year, month, day, hour, min, sec, tag, orig]
      ∧ Digits 4 year ∧ Digits 2 month ∧ Digits 2 day ∧ Digits 2 hour ∧ Digits 2 min
      ∧ (Digits 2 sec ∨ sec = ['x', 'y']) := by
  unfold formattedFilenameRep
  generalize hm : (matchPieces (datePieces '.') s).bind _ = m
  cases m with
  | none => exact Or.inl rfl
  | some l =>
    right
    simp only [Option.bind_eq_some] at hm
    obtain ⟨date, hdate, sec, hs, hl⟩ := hm
    obtain ⟨year, month, day, hour, min, hg, hy2, hmo2, hd2, hh2, hmi2⟩ :=
      datePieces_some '.' s date hdate
    have hs2 := (secGroup_some _ _ hs).2
    rw [hg] at hl
    cases hb : (lit '.' sec.2).bind fun s6 =>
        if s6.takeWhile isAlnum = [] then none
        else (originalFilenameGroup (s6.dropWhile isAlnum)).map fun orig =>
          s :: [year, month, day, hour, min] ++ [sec.1, '.' :: s6.takeWhile isAlnum, orig] with
    | some l2 =>
      simp only [hb, Option.orElse, Option.some.injEq] at hl
      subst hl
      simp only [Option.bind_eq_some] at hb
      obtain ⟨s6, -, hb⟩ := hb
      split at hb
      · simp at hb
      · simp only [Option.map_eq_some'] at hb
        obtain ⟨orig, -, rfl⟩ := hb
        exact ⟨_, _, _, _, _, _, _, _, rfl, hy2, hmo2, hd2, hh2, hmi2, hs2⟩
    | none =>
      simp only [hb, Option.orElse, Option.map_eq_some'] at hl
      obtain ⟨orig, -, rfl⟩ := hl
      exact ⟨_, _, _, _, _, _, _, _, rfl, hy2, hmo2, hd2, hh2, hmi2, hs2⟩

theorem parseDate_digits (env : Env) (year month day hour min sec : Str)
    (hy : Digits 4 year) (hmo : Digits 2 month) (hd : Digits 2 day) (hh : Digits 2 hour)
    (hmi : Digits 2 min) (hs : Digits 2 sec) :
    parseDate env year month day hour min sec [] []
      = .ok (Date env (digitsVal year) (digitsVal month) (digitsVal day) (digitsVal hour)
          (digitsVal min) (digitsVal sec) 0 .utc) := by
  unfold parseDate
  rw [parseField_digits 4 year _ hy (by norm_num) (by norm_num),
    parseField_digits 2 month _ hmo (by norm_num) (by norm_num),
    parseField_digits 2 day _ hd (by norm_num) (by norm_num),
    parseField_digits 2 hour _ hh (by norm_num) (by norm_num),
    parseField_digits 2 min _ hmi (by norm_num) (by norm_num),
    parseField_digits 2 sec _ hs (by norm_num) (by norm_num)]
  simp [Outcome.bind]

theorem digits_zero_zero : Digits 2 ['0', '0'] := by
  refine ⟨rfl, ?_⟩
  intro c hc
  simp only [List.mem_cons, List.mem_singleton, List.not_mem_nil, or_false, or_self] at hc
  subst hc
  decide

/-- The seconds that `parseFilename` reads from the sixth group: `xy` stands for `00`. -/
theorem parseFilename_of_match (env : Env) (s year month day hour min sec tag orig : Str)
    (hm : formattedFilenameRep s = [s, year, month, day, hour, min, sec, tag, orig])
    (hy : Digits 4 year) (hmo : Digits 2 month) (hd : Digits 2 day) (hh : Digits 2 hour)
    (hmi : Digits 2 min) (hs : Digits 2 sec ∨ sec = ['x', 'y']) :
    parseFilename env s
      = .ok (orig, Date env (digitsVal year) (digitsVal month) (digitsVal day)
          (digitsVal hour) (digitsVal min)
          (if sec = ['x', 'y'] then 0 else digitsVal sec) 0 .utc) := by
  unfold parseFilename
  rw [hm]
  by_cases hxy : sec = ['x', 'y']
  · subst hxy
    simp [index, Outcome.bind, parseDate_digits env year month day hour min ['0', '0']
      hy hmo hd hh hmi digits_zero_zero, digitsVal]
  · have hs2 : Digits 2 sec := hs.resolve_right hxy
    simp [index, Outcome.bind, hxy, parseDate_digits env year month day hour min sec
      hy hmo hd hh hmi hs2]

theorem parseFilename_of_no_match (env : Env) (s : Str) (hm : formattedFilenameRep s = []) :
    parseFilename env s = .ok (s, Time.zero) := by
  unfold parseFilename
  simp [hm]

theorem parseFilename_total (env : Env) (s : Str) :
    ∃ orig date, parseFilename env s = .ok (orig, date) := by
  rcases formattedFilenameRep_shape s with h | ⟨year, month, day, hour, min, sec, tag, orig,
    hm, hy, hmo, hd, hh, hmi, hs⟩
  · exact ⟨_, _, parseFilename_of_no_match env s h⟩
  · exact ⟨_, _, parseFilename_of_match env s year month day hour min sec tag orig hm
      hy hmo hd hh hmi hs⟩

theorem secGroup_append (sec r : Str) (hs : Digits 2 sec ∨ sec = ['x', 'y']) :
    secGroup (sec ++ r) = some (sec, r) := by
  rcases hs with hs | rfl
  · simp [secGroup, digitsN_append 2 sec r hs, Option.orElse]
  · have hx : isDigit 'x' = false := by decide
    simp [secGroup, digitsN, hx, Option.orElse]

theorem originalFilenameGroup_name (name : Str) (hn : ∀ c ∈ name, c ≠ '\n') :
    originalFilenameGroup (' ' :: '(' :: (name ++ [')'])) = some name := by
  have hall : name.all (fun c => c != '\n') = true := by
    rw [List.all_eq_true]
    intro c hc
    simpa using hn c hc
  have hmem : '\n' ∉ name := fun h => hn _ h rfl
  simp [originalFilenameGroup, lit, hmem]

theorem takeWhile_run (p : Char → Bool) (run rest : Str) (x : Char)
    (hr : ∀ c ∈ run, p c = true) (hx : p x = false) :
    (run ++ x :: rest).takeWhile p = run ∧ (run ++ x :: rest).dropWhile p = x :: rest := by
  induction run with
  | nil => simp [List.takeWhile, List.dropWhile, hx]
  | cons c t ih =>
    have hc := hr c (List.mem_cons_self _ _)
    obtain ⟨h1, h2⟩ := ih (fun y hy => hr y (List.mem_cons_of_mem _ hy))
    simp [List.takeWhile, List.dropWhile, hc, h1, h2]

theorem formattedFilenameRep_canonical (year month day hour min sec tag name : Str)
    (hy : Digits 4 year) (hmo : Digits 2 month) (hd : Digits 2 day) (hh : Digits 2 hour)
    (hmi : Digits 2 min) (hs : Digits 2 sec ∨ sec = ['x', 'y']) (ht : IsTag tag)
    (hn : ∀ c ∈ name, c ≠ '\n') :
    formattedFilenameRep (canonicalName year month day hour min sec tag name)
      = [canonicalName year month day hour min sec tag name,
          year, month, day, hour, min, sec, tag, name] := by
  have hsp : isAlnum ' ' = false := by decide
  unfold formattedFilenameRep
  generalize hc : canonicalName year month day hour min sec tag name = whole
  have hhead : matchPieces (datePieces '.') whole
      = some ([year, month, day, hour, min], sec ++ (tag ++ ' ' :: '(' :: (name ++ [')']))) := by
    rw [← hc]
    exact datePieces_append '.' year month day hour min _ hy hmo hd hh hmi
  simp only [hhead, Option.some_bind, secGroup_append sec _ hs]
  rcases ht with rfl | ⟨run, hne, hrun, rfl⟩
  · simp [lit, Option.orElse, originalFilenameGroup_name name hn]
  · obtain ⟨h1, h2⟩ := takeWhile_run isAlnum run ('(' :: (name ++ [')'])) ' ' hrun hsp
    simp only [List.cons_append, lit_cons, Option.some_bind, h1, h2, hne, if_false,
      originalFilenameGroup_name name hn, Option.map_some', Option.orElse, Option.getD_some,
      List.nil_append]

/-! ## The strings that the canonical pattern matches -/

theorem datePieces_split (sep : Char) (s : Str) (r : List Str × Str)
    (h : matchPieces (datePieces sep) s = some r) :
    ∃ year month day hour min, r.1 = [year, month, day, hour, min]
      ∧ s = year ++ sep :: (month ++ sep :: (day ++ ' ' :: (hour ++ sep ::
          (min ++ sep :: r.2)))) := by
  simp only [datePieces, matchPieces, Option.bind_eq_some, Option.map_eq_some'] at h
  obtain ⟨year, hy, r1, ⟨s1, hs1, month, hmo, r2, ⟨s2, hs2, day, hd, r3, ⟨s3, hs3, hour, hh,
    r4, ⟨s4, hs4, min, hmi, r5, ⟨s5, hs5, h5⟩, h4⟩, h3⟩, h2⟩, h1⟩, h0⟩ := h
  simp only [Option.some.injEq] at h5
  subst h5 h4 h3 h2 h1 h0
  refine ⟨_, _, _, _, _, rfl, ?_⟩
  rw [(digitsN_some _ _ _ hy).1, lit_some _ _ _ hs1, (digitsN_some _ _ _ hmo).1,
    lit_some _ _ _ hs2, (digitsN_some _ _ _ hd).1, lit_some _ _ _ hs3,
    (digitsN_some _ _ _ hh).1, lit_some _ _ _ hs4, (digitsN_some _ _ _ hmi).1,
    lit_some _ _ _ hs5]

theorem originalFilenameGroup_some (s name : Str) (h : originalFilenameGroup s = some name) :
    s = ' ' :: '(' :: (name ++ [')']) ∧ ∀ c ∈ name, c ≠ '\n' := by
  simp only [originalFilenameGroup, Option.bind_eq_some] at h
  obtain ⟨s1, h1, s2, h2, h3⟩ := h
  split at h3
  · rename_i hc
    simp only [Option.some.injEq] at h3
    subst h3
    obtain ⟨hlast, hall⟩ := hc
    constructor
    · rw [lit_some _ _ _ h1, lit_some _ _ _ h2]
      congr 2
      exact (List.dropLast_append_getLast? _ hlast).symm
    · intro c hc
      rw [List.all_eq_true] at hall
      simpa using hall c hc
  · simp at h3

/-- The strings that `formattedFilenameRep` matches are the canonical names: a date of
digits, seconds of digits or `xy`, an optional source, and a name without line feed
between parentheses. -/
theorem formattedFilenameRep_matches_iff (s : Str) :
    formattedFilenameRep s ≠ [] ↔
    ∃ year month day hour min sec tag name : Str,
      Digits 4 year ∧ Digits 2 month ∧ Digits 2 day ∧ Digits 2 hour ∧ Digits 2 min
      ∧ (Digits 2 sec ∨ sec = ['x', 'y']) ∧ IsTag tag ∧ (∀ c ∈ name, c ≠ '\n')
      ∧ s = canonicalName year month day hour min sec tag name := by
  constructor
  · intro hne
    unfold formattedFilenameRep at hne
    generalize hm : (matchPieces (datePieces '.') s).bind _ = m at hne
    cases m with
    | none => exact absurd rfl hne
    | some l =>
      simp only [Option.bind_eq_some] at hm
      obtain ⟨date, hdate, sec, hs, hl⟩ := hm
      obtain ⟨year, month, day, hour, min, hg, hy2, hmo2, hd2, hh2, hmi2⟩ :=
        datePieces_some '.' s date hdate
      obtain ⟨year2, month2, day2, hour2, min2, hg2, hsplit⟩ := datePieces_split '.' s date hdate
      rw [hg] at hg2
      simp only [List.cons.injEq, and_true] at hg2
      obtain ⟨rfl, rfl, rfl, rfl, rfl⟩ := hg2
      obtain ⟨hsec1, hsec2⟩ := secGroup_some _ _ hs
      cases hb : (lit '.' sec.2).bind fun s6 =>
          if s6.takeWhile isAlnum = [] then none
          else (originalFilenameGroup (s6.dropWhile isAlnum)).map fun orig =>
            s :: date.1 ++ [sec.1, '.' :: s6.takeWhile isAlnum, orig] with
      | some l2 =>
        simp only [Option.bind_eq_some] at hb
        obtain ⟨s6, hs6, hb⟩ := hb
        split at hb
        · simp at hb
        · rename_i hrun
          simp only [Option.map_eq_some'] at hb
          obtain ⟨orig, horig, -⟩ := hb
          obtain ⟨ho1, ho2⟩ := originalFilenameGroup_some _ _ horig
          refine ⟨year, month, day, hour, min, sec.1, '.' :: s6.takeWhile isAlnum, orig,
            hy2, hmo2, hd2, hh2, hmi2, hsec2,
            Or.inr ⟨_, hrun, fun c hc => (List.mem_takeWhile_imp hc), rfl⟩, ho2, ?_⟩
          rw [hsplit, hsec1, lit_some _ _ _ hs6]
          conv_lhs => rw [← List.takeWhile_append_dropWhile isAlnum s6, ho1]
          simp [canonicalName]
      | none =>
        simp only [hb, Option.orElse, Option.map_eq_some'] at hl
        obtain ⟨orig, horig, -⟩ := hl
        obtain ⟨ho1, ho2⟩ := originalFilenameGroup_some _ _ horig
        refine ⟨year, month, day, hour, min, sec.1, [], orig,
          hy2, hmo2, hd2, hh2, hmi2, hsec2, Or.inl rfl, ho2, ?_⟩
        rw [hsplit, hsec1, ho1]
        simp [canonicalName]
  · rintro ⟨year, month, day, hour, min, sec, tag, name, hy, hmo, hd, hh, hmi, hs, ht, hn, rfl⟩
    rw [formattedFilenameRep_canonical year month day hour min sec tag name
      hy hmo hd hh hmi hs ht hn]
    simp

/-! ## Decoding of file names -/

/-- C6. For every base filename that the canonical pattern does not match,
`parseFilename` returns the whole input as the original filename, the zero time (no
prior date) and no error. -/
theorem parseFilename_not_canonical (env : Env) (filename : Str)
    (h : formattedFilenameRep filename = []) :
    parseFilename env filename = .ok (filename, Time.zero) :=
  parseFilename_of_no_match env filename h

/-- C6, witness: the name `original`. -/
theorem parseFilename_not_canonical_witness :
    formattedFilenameRep "original".toList = []
    ∧ parseFilename (sampleEnv []) "original".toList = .ok ("original".toList, Time.zero) :=
  ⟨by decide, parseFilename_not_canonical (sampleEnv []) "original".toList (by decide)⟩

/-- Decoding of the names that the pattern matches. For every base filename of the
canonical form `YYYY.MM.DD HH.MM.SS[.tag] (name)` with digits in the date fields,
seconds of two digits or the literal `xy`, and a name without line feed (by
`formattedFilenameRep_matches_iff` these are the names that the pattern matches),
`parseFilename` returns without error the text between the parenthesis that follows the
date and the final parenthesis, and the date that `time.Date` builds in UTC from the six
fields, the seconds being 0 for `xy`. -/
theorem parseFilename_canonical (env : Env) (year month day hour min sec tag name : Str)
    (hy : Digits 4 year) (hmo : Digits 2 month) (hd : Digits 2 day) (hh : Digits 2 hour)
    (hmi : Digits 2 min) (hs : Digits 2 sec ∨ sec = ['x', 'y']) (ht : IsTag tag)
    (hn : ∀ c ∈ name, c ≠ '\n') :
    parseFilename env (canonicalName year month day hour min sec tag name)
      = .ok (name, Date env (digitsVal year) (digitsVal month) (digitsVal day)
          (digitsVal hour) (digitsVal min)
          (if sec = ['x', 'y'] then 0 else digitsVal sec) 0 .utc) :=
  parseFilename_of_match env _ year month day hour min sec tag name
    (formattedFilenameRep_canonical year month day hour min sec tag name
      hy hmo hd hh hmi hs ht hn) hy hmo hd hh hmi hs

/-- An instance of the decoding: the name `2022.06.01 14.22.xy.dt (a (b))`. -/
theorem parseFilename_canonical_witness :
    canonicalName "2022".toList "06".toList "01".toList "14".toList "22".toList
        "xy".toList ".dt".toList "a (b)".toList = "2022.06.01 14.22.xy.dt (a (b))".toList
    ∧ parseFilename (sampleEnv []) (canonicalName "2022".toList "06".toList "01".toList
        "14".toList "22".toList "xy".toList ".dt".toList "a (b)".toList)
      = .ok ("a (b)".toList, Date (sampleEnv []) 2022 6 1 14 22 0 0 .utc) :=
  ⟨by decide,
    parseFilename_canonical (sampleEnv []) "2022".toList "06".toList "01".toList
      "14".toList "22".toList "xy".toList ".dt".toList "a (b)".toList
      (by decide) (by decide) (by decide) (by decide) (by decide) (Or.inr (by decide))
      (Or.inr ⟨"dt".toList, by decide, by decide, by decide⟩) (by decide)⟩

/-- C7, at the failing input: the base filename `2022.06.01 14.22.10.dt (a`, line feed,
`b)`, which `getNewFilename` writes for the original name `a`, line feed, `b`. The dot
of the last group `(.*)` of `formattedFilenameRep` does not match a line feed: the
pattern does not match the name, and `parseFilename` returns the whole name as the
original filename and the zero time instead of the text between the parentheses and the
date 2022-06-01 14:22:10. With a space in place of the line feed both are returned. -/
theorem parseFilename_line_feed :
    canonicalName "2022".toList "06".toList "01".toList "14".toList "22".toList
        "10".toList ".dt".toList ['a', '\n', 'b'] = "2022.06.01 14.22.10.dt (a\nb)".toList
    ∧ getNewFilename (sampleEnv []) (Date (sampleEnv []) 2022 6 1 14 22 10 0 .utc)
        "dt".toList ['a', '\n', 'b'] = "2022.06.01 14.22.10.dt (a\nb)".toList
    ∧ formattedFilenameRep "2022.06.01 14.22.10.dt (a\nb)".toList = []
    ∧ parseFilename (sampleEnv []) "2022.06.01 14.22.10.dt (a\nb)".toList
      = .ok ("2022.06.01 14.22.10.dt (a\nb)".toList, Time.zero)
    ∧ parseFilename (sampleEnv []) "2022.06.01 14.22.10.dt (a b)".toList
      = .ok ("a b".toList, Date (sampleEnv []) 2022 6 1 14 22 10 0 .utc) := by
  refine ⟨?_, ?_, ?_, ?_, ?_⟩ <;> decide

theorem secGroup_none (a b : Char) (rest : Str)
    (hnd : ¬ (isDigit a = true ∧ isDigit b = true)) (hxy : [a, b] ≠ ['x', 'y']) :
    secGroup (a :: b :: rest) = none := by
  have hd : digitsN 2 (a :: b :: rest) = none := by
    by_cases ha : isDigit a = true
    · have hb : ¬ isDigit b = true := fun hb => hnd ⟨ha, hb⟩
      simp [digitsN, ha, hb]
    · simp [digitsN, ha]
  unfold secGroup
  rw [hd]
  simp only [Option.orElse]
  split
  · rename_i t heq
    simp only [List.cons.injEq] at heq
    exact absurd (by rw [heq.1, heq.2.1]) hxy
  · rfl

/-- C8, as the code has it. For every string with the canonical structure except that
its two-character seconds field is neither two digits nor `xy`, the pattern does not
match: `parseFilename` returns no error, but the whole input as the original filename
and the zero time, as for any name that is not canonical. -/
theorem parseFilename_bad_seconds (env : Env) (year month day hour min tag name : Str)
    (a b : Char) (hy : Digits 4 year) (hmo : Digits 2 month) (hd : Digits 2 day)
    (hh : Digits 2 hour) (hmi : Digits 2 min)
    (hnd : ¬ (isDigit a = true ∧ isDigit b = true)) (hxy : [a, b] ≠ ['x', 'y']) :
    parseFilename env (canonicalName year month day hour min [a, b] tag name)
      = .ok (canonicalName year month day hour min [a, b] tag name, Time.zero) := by
  apply parseFilename_of_no_match
  unfold formattedFilenameRep
  generalize hc : canonicalName year month day hour min [a, b] tag name = whole
  have hhead : matchPieces (datePieces '.') whole
      = some ([year, month, day, hour, min], a :: b :: (tag ++ ' ' :: '(' :: (name ++ [')']))) := by
    rw [← hc]
    exact datePieces_append '.' year month day hour min _ hy hmo hd hh hmi
  simp only [hhead, Option.some_bind, secGroup_none a b _ hnd hxy, Option.none_bind,
    Option.getD_none]

/-- C8, witness: the seconds `ab`. -/
theorem parseFilename_bad_seconds_witness :
    parseFilename (sampleEnv []) (canonicalName "2022".toList "06".toList "01".toList
        "14".toList "22".toList ['a', 'b'] ".dt".toList "original".toList)
      = .ok (canonicalName "2022".toList "06".toList "01".toList
        "14".toList "22".toList ['a', 'b'] ".dt".toList "original".toList, Time.zero) :=
  parseFilename_bad_seconds (sampleEnv []) "2022".toList "06".toList "01".toList
    "14".toList "22".toList ".dt".toList "original".toList 'a' 'b'
    (by decide) (by decide) (by decide) (by decide) (by decide) (by decide) (by decide)

/-- C8, counterexample: the name `2022.06.01 14.22.ab.dt (original)` is canonical but
for its seconds `ab`; decoding it is not a failure but a successful result, the whole
name with the zero time. -/
theorem parseFilename_bad_seconds_no_error :
    parseFilename (sampleEnv []) "2022.06.01 14.22.ab.dt (original)".toList
      = .ok ("2022.06.01 14.22.ab.dt (original)".toList, Time.zero)
    ∧ ¬ ∃ e, parseFilename (sampleEnv []) "2022.06.01 14.22.ab.dt (original)".toList
      = .error e := by
  have h : parseFilename (sampleEnv []) "2022.06.01 14.22.ab.dt (original)".toList
      = .ok ("2022.06.01 14.22.ab.dt (original)".toList, Time.zero) :=
    parseFilename_of_no_match _ _ (by decide)
  refine ⟨h, ?_⟩
  rintro ⟨e, he⟩
  rw [h] at he
  cases he

/-! ## Entries that are not media -/

/-- C10. For every file entry that the walk hands over without error and whose
extension, lower-cased and without its dots, is not in `supportedExts`, whatever its
base filename, the callback returns no error, renames nothing, writes nothing, and
only adds one to `totalFilesFound`: the decision is skip-unsupported. -/
theorem walkFn_unsupported (env : Env) (cfg : Config) (c : Counters) (curFilepath : Str)
    (curFileInfo : FileInfo) (hfile : curFileInfo.IsDir = false)
    (hext : supportedExts.contains
      (env.ToLower (TrimLeftDots (Ext (Split curFilepath).2))) = false) :
    walkFn env cfg c curFilepath curFileInfo none
      = .returned { counters := { c with totalFilesFound := c.totalFilesFound + 1 },
                    out := [], renamed := none, err := none,
                    decision := some Decision.skipUnsupported } := by
  obtain ⟨orig, date, hp⟩ := parseFilename_total env
    (TrimSuffix (Split curFilepath).2 (Ext (Split curFilepath).2))
  unfold walkFn
  simp only [hfile, hp, hext]
  simp


/-- C10, witness: the entry `/d/2022.06.01 14.22.10.dt (notes).TXT`. -/
theorem walkFn_unsupported_witness :
    sampleFileInfo.IsDir = false
    ∧ supportedExts.contains ((sampleEnv []).ToLower (TrimLeftDots
        (Ext (Split "/d/2022.06.01 14.22.10.dt (notes).TXT".toList).2))) = false
    ∧ walkFn (sampleEnv []) (sampleConfig actionExecute) zeroCounters
        "/d/2022.06.01 14.22.10.dt (notes).TXT".toList sampleFileInfo none
      = .returned { counters := { zeroCounters with totalFilesFound := 1 },
                    out := [], renamed := none, err := none,
                    decision := some Decision.skipUnsupported } :=
  ⟨rfl, by decide,
    walkFn_unsupported (sampleEnv []) (sampleConfig actionExecute) zeroCounters
      "/d/2022.06.01 14.22.10.dt (notes).TXT".toList sampleFileInfo rfl (by decide)⟩

/-! ## The callback on a media file -/

theorem Sub_range (t u : Time) : minDuration ≤ t.Sub u ∧ t.Sub u ≤ maxDuration := by
  unfold Time.Sub
  have h : minDuration ≤ maxDuration := by decide
  simp only
  split
  · exact ⟨le_refl _, h⟩
  · split
    · exact ⟨h, le_refl _⟩
    · constructor <;> omega

theorem walkFn_media (env : Env) (cfg : Config) (c : Counters) (curFilepath : Str)
    (curFileInfo : FileInfo) (orig : Str) (old dateTaken : Time) (dateSource : Str)
    (hfile : curFileInfo.IsDir = false)
    (hext : supportedExts.contains
      (env.ToLower (TrimLeftDots (Ext (Split curFilepath).2))) = true)
    (hp : parseFilename env (TrimSuffix (Split curFilepath).2 (Ext (Split curFilepath).2))
      = .ok (orig, old))
    (hr : resolveDate env cfg curFilepath orig curFileInfo = .ok (dateTaken, dateSource)) :
    walkFn env cfg c curFilepath curFileInfo none
      = .returned (renameEntry env cfg
          { c with totalFilesFound := c.totalFilesFound + 1,
                   totalMediaFound := c.totalMediaFound + 1 }
          curFilepath (Split curFilepath).1 (Split curFilepath).2
          (TrimSuffix (Split curFilepath).2 (Ext (Split curFilepath).2))
          (env.ToLower (TrimLeftDots (Ext (Split curFilepath).2)))
          orig old dateTaken dateSource) := by
  unfold walkFn
  simp only [hfile, hp, hext, hr]
  simp

theorem actionExecute_ne_actionPrint : actionExecute ≠ actionPrint := by decide

theorem renameEntry_step (env : Env) (cfg : Config) (c : Counters)
    (curFilepath dir filenameWithExt filename ext orig : Str) (old dateTaken : Time)
    (dateSource : Str) (hne : filename ≠ getNewFilename env dateTaken dateSource orig) :
    ((∃ d, Out.distance d ∈ (renameEntry env cfg c curFilepath dir filenameWithExt filename
        ext orig old dateTaken dateSource).out) ↔ old ≠ Time.zero)
    ∧ (old ≠ Time.zero → Out.distance (dateTaken.Sub old)
        ∈ (renameEntry env cfg c curFilepath dir filenameWithExt filename
            ext orig old dateTaken dateSource).out)
    ∧ ((renameEntry env cfg c curFilepath dir filenameWithExt filename
          ext orig old dateTaken dateSource).decision = some Decision.warnDriftSkip
        ↔ old ≠ Time.zero
          ∧ cfg.maxDatesDistanceInMilliseconds < |Milliseconds (dateTaken.Sub old)|)
    ∧ (Out.warning ∈ (renameEntry env cfg c curFilepath dir filenameWithExt filename
          ext orig old dateTaken dateSource).out
        ↔ old ≠ Time.zero
          ∧ cfg.maxDatesDistanceInMilliseconds < |Milliseconds (dateTaken.Sub old)|)
    ∧ (old ≠ Time.zero
          ∧ cfg.maxDatesDistanceInMilliseconds < |Milliseconds (dateTaken.Sub old)| →
        (renameEntry env cfg c curFilepath dir filenameWithExt filename
          ext orig old dateTaken dateSource).renamed = none
        ∧ (renameEntry env cfg c curFilepath dir filenameWithExt filename
          ext orig old dateTaken dateSource).counters
          = { c with totalMediaWarnings := c.totalMediaWarnings + 1 })
    ∧ (¬ (old ≠ Time.zero
          ∧ cfg.maxDatesDistanceInMilliseconds < |Milliseconds (dateTaken.Sub old)|) →
        (renameEntry env cfg c curFilepath dir filenameWithExt filename
          ext orig old dateTaken dateSource).counters
          = { c with totalMediaActions := c.totalMediaActions + 1 }
        ∧ (cfg.action = actionPrint →
          (renameEntry env cfg c curFilepath dir filenameWithExt filename
            ext orig old dateTaken dateSource).decision = some Decision.printOnly
          ∧ (renameEntry env cfg c curFilepath dir filenameWithExt filename
            ext orig old dateTaken dateSource).renamed = none)
        ∧ (cfg.action = actionExecute →
          (renameEntry env cfg c curFilepath dir filenameWithExt filename
            ext orig old dateTaken dateSource).decision = some Decision.execute
          ∧ (renameEntry env cfg c curFilepath dir filenameWithExt filename
            ext orig old dateTaken dateSource).renamed
            = some (curFilepath,
                dir ++ (getNewFilename env dateTaken dateSource orig ++ ['.'] ++ ext)))) := by
  have hfar : checkDatesTooFar (dateTaken.Sub old) cfg.maxDatesDistanceInMilliseconds = true
      ↔ cfg.maxDatesDistanceInMilliseconds < |Milliseconds (dateTaken.Sub old)| := by
    rw [checkDatesTooFar_eq _ _ (Sub_range _ _).1 (Sub_range _ _).2]
    simp
  have hxp := actionExecute_ne_actionPrint
  by_cases hz : old = Time.zero
  · have hdec : decide (old ≠ Time.zero) = false := by simpa using hz
    by_cases hp : cfg.action = actionPrint
    · simp [renameEntry, hne, hdec, hz, hp, hxp.symm]
    · by_cases he : cfg.action = actionExecute
      · cases hr : env.Rename curFilepath
            (dir ++ (getNewFilename env dateTaken dateSource orig ++ '.' :: ext)) <;>
          simp [renameEntry, hne, hdec, hz, he, hr, hxp]
      · simp [renameEntry, hne, hdec, hz, hp, he]
  · have hdec : decide (old ≠ Time.zero) = true := by simpa using hz
    by_cases hf : checkDatesTooFar (dateTaken.Sub old) cfg.maxDatesDistanceInMilliseconds
        = true
    · have hf2 := hfar.mp hf
      simp [renameEntry, hne, hdec, hf, hz, hf2]
    · have hf2 : ¬ cfg.maxDatesDistanceInMilliseconds < |Milliseconds (dateTaken.Sub old)| :=
        fun h => hf (hfar.mpr h)
      by_cases hp : cfg.action = actionPrint
      · simp [renameEntry, hne, hdec, hf, hp, hz, hf2, hxp.symm]
      · by_cases he : cfg.action = actionExecute
        · cases hr : env.Rename curFilepath
              (dir ++ (getNewFilename env dateTaken dateSource orig ++ '.' :: ext)) <;>
            simp [renameEntry, hne, hdec, hf, he, hr, hz, hf2, hxp]
        · simp [renameEntry, hne, hdec, hf, hp, he, hz, hf2]

theorem renameEntry_too_far (env : Env) (cfg : Config) (c : Counters)
    (curFilepath dir filenameWithExt filename ext orig : Str) (old dateTaken : Time)
    (dateSource : Str) (hne : filename ≠ getNewFilename env dateTaken dateSource orig)
    (hold : old ≠ Time.zero)
    (hfar : cfg.maxDatesDistanceInMilliseconds < |Milliseconds (dateTaken.Sub old)|) :
    renameEntry env cfg c curFilepath dir filenameWithExt filename ext orig old dateTaken
        dateSource
      = { counters := { c with totalMediaWarnings := c.totalMediaWarnings + 1 },
          out := [Out.arrow filenameWithExt
                    (getNewFilename env dateTaken dateSource orig ++ ['.'] ++ ext),
                  Out.distance (dateTaken.Sub old), Out.warning],
          renamed := none, err := none, decision := some Decision.warnDriftSkip } := by
  have hdec : decide (old ≠ Time.zero) = true := by simpa using hold
  have hf : checkDatesTooFar (dateTaken.Sub old) cfg.maxDatesDistanceInMilliseconds
      = true := by
    rw [checkDatesTooFar_eq _ _ (Sub_range _ _).1 (Sub_range _ _).2]
    simpa using hfar
  simp [renameEntry, hne, hdec, hf]

/-! ## The drift check in the callback -/

/-- C9, as the code has it. For every media file whose date resolves and whose new name
differs from the existing one, the prior date counts as present exactly when the base
filename matches the canonical pattern and the date that `parseFilename` reads from it
is not the zero time 0001-01-01 00:00:00 UTC. The drift check is run (the distance is
printed) exactly when the prior date is present; the callback warns and decides
warn-drift-skip, renaming nothing and counting a warning, exactly when the prior date
is present and the distance is beyond the threshold. In every other case, also when the
prior date is absent and the distance is beyond the threshold, an action is counted and
the decision is print-only under the action print, execute with the call of `os.Rename`
under the action execute. -/
theorem drift_check_iff (env : Env) (cfg : Config) (c : Counters) (curFilepath : Str)
    (curFileInfo : FileInfo) (orig : Str) (old dateTaken : Time) (dateSource : Str)
    (hfile : curFileInfo.IsDir = false)
    (hext : supportedExts.contains
      (env.ToLower (TrimLeftDots (Ext (Split curFilepath).2))) = true)
    (hp : parseFilename env (TrimSuffix (Split curFilepath).2 (Ext (Split curFilepath).2))
      = .ok (orig, old))
    (hr : resolveDate env cfg curFilepath orig curFileInfo = .ok (dateTaken, dateSource))
    (hne : TrimSuffix (Split curFilepath).2 (Ext (Split curFilepath).2)
      ≠ getNewFilename env dateTaken dateSource orig) :
    let present : Prop :=
      formattedFilenameRep (TrimSuffix (Split curFilepath).2 (Ext (Split curFilepath).2)) ≠ []
        ∧ old ≠ Time.zero
    let tooFar : Prop :=
      cfg.maxDatesDistanceInMilliseconds < |Milliseconds (dateTaken.Sub old)|
    ∃ s, walkFn env cfg c curFilepath curFileInfo none = .returned s
      ∧ ((∃ d, Out.distance d ∈ s.out) ↔ present)
      ∧ (present → Out.distance (dateTaken.Sub old) ∈ s.out)
      ∧ (s.decision = some Decision.warnDriftSkip ↔ present ∧ tooFar)
      ∧ (Out.warning ∈ s.out ↔ present ∧ tooFar)
      ∧ (present ∧ tooFar →
          s.renamed = none
          ∧ s.counters = { c with totalFilesFound := c.totalFilesFound + 1,
                                  totalMediaFound := c.totalMediaFound + 1,
                                  totalMediaWarnings := c.totalMediaWarnings + 1 })
      ∧ (¬ (present ∧ tooFar) →
          s.counters = { c with totalFilesFound := c.totalFilesFound + 1,
                                totalMediaFound := c.totalMediaFound + 1,
                                totalMediaActions := c.totalMediaActions + 1 }
          ∧ (cfg.action = actionPrint →
              s.decision = some Decision.printOnly ∧ s.renamed = none)
          ∧ (cfg.action = actionExecute →
              s.decision = some Decision.execute
              ∧ s.renamed = some (curFilepath,
                  (Split curFilepath).1 ++ (getNewFilename env dateTaken dateSource orig
                    ++ ['.'] ++ env.ToLower (TrimLeftDots (Ext (Split curFilepath).2)))))) := by
  intro present tooFar
  have hpres : present ↔ old ≠ Time.zero := by
    refine ⟨fun h => h.2, fun h => ⟨fun hm => ?_, h⟩⟩
    rw [parseFilename_of_no_match env _ hm] at hp
    simp only [Outcome.ok.injEq, Prod.mk.injEq] at hp
    exact h hp.2.symm
  obtain ⟨h1, h2, h3, h4, h5, h6⟩ := renameEntry_step env cfg
    { c with totalFilesFound := c.totalFilesFound + 1,
             totalMediaFound := c.totalMediaFound + 1 }
    curFilepath (Split curFilepath).1 (Split curFilepath).2
    (TrimSuffix (Split curFilepath).2 (Ext (Split curFilepath).2))
    (env.ToLower (TrimLeftDots (Ext (Split curFilepath).2)))
    orig old dateTaken dateSource hne
  refine ⟨_, walkFn_media env cfg c curFilepath curFileInfo orig old dateTaken dateSource
    hfile hext hp hr, ?_⟩
  simp only [hpres]
  exact ⟨h1, h2, h3, h4, h5, h6⟩

/-- C9, witness: a name that encodes 2020-01-01 00:00:00, metadata of 2022. -/
theorem drift_check_iff_witness :
    sampleFileInfo.IsDir = false
    ∧ resolveDate (sampleEnv (dateTimeOriginal "2022:06:01 14:22:10".toList))
        (sampleConfig actionPrint) "/d/2020.01.01 00.00.00.dt (original).jpg".toList
        "original".toList sampleFileInfo
      = .ok (Date (sampleEnv []) 2022 6 1 14 22 10 0 .utc, "dt".toList)
    ∧ (formattedFilenameRep "2020.01.01 00.00.00.dt (original)".toList ≠ []
        ∧ Date (sampleEnv []) 2020 1 1 0 0 0 0 .utc ≠ Time.zero)
    ∧ ∃ s, walkFn (sampleEnv (dateTimeOriginal "2022:06:01 14:22:10".toList))
          (sampleConfig actionPrint) zeroCounters
          "/d/2020.01.01 00.00.00.dt (original).jpg".toList sampleFileInfo none = .returned s
        ∧ Out.distance 76256530000000000 ∈ s.out
        ∧ s.decision = some Decision.warnDriftSkip
        ∧ Out.warning ∈ s.out
        ∧ s.renamed = none
        ∧ s.counters = ⟨1, 1, 0, 1, 0⟩ := by
  have hpres : formattedFilenameRep "2020.01.01 00.00.00.dt (original)".toList ≠ []
      ∧ Date (sampleEnv []) 2020 1 1 0 0 0 0 .utc ≠ Time.zero := by
    constructor <;> decide
  have hfar : (sampleConfig actionPrint).maxDatesDistanceInMilliseconds
      < |Milliseconds ((Date (sampleEnv []) 2022 6 1 14 22 10 0 .utc).Sub
          (Date (sampleEnv []) 2020 1 1 0 0 0 0 .utc))| := by decide
  obtain ⟨s, hs, -, h2, h3, h4, h5, -⟩ :=
    drift_check_iff (sampleEnv (dateTimeOriginal "2022:06:01 14:22:10".toList))
      (sampleConfig actionPrint) zeroCounters
      "/d/2020.01.01 00.00.00.dt (original).jpg".toList sampleFileInfo "original".toList
      (Date (sampleEnv []) 2020 1 1 0 0 0 0 .utc)
      (Date (sampleEnv []) 2022 6 1 14 22 10 0 .utc) "dt".toList
      rfl (by decide) (by decide) (by decide) (by decide)
  exact ⟨rfl, by decide, hpres, s, hs, h2 hpres, h3.mpr ⟨hpres, hfar⟩, h4.mpr ⟨hpres, hfar⟩,
    (h5 ⟨hpres, hfar⟩).1, (h5 ⟨hpres, hfar⟩).2⟩

/-- C9, counterexample: the name `0001.01.01 00.00.00.dt (original)` matches the
canonical pattern, the metadata date is 2022-06-01 14:22:10, and yet no distance is
printed and no drift check is made: the date of the name equals `time.Time{}` and
counts as absent. -/
theorem drift_check_skipped_at_zero_time :
    formattedFilenameRep "0001.01.01 00.00.00.dt (original)".toList ≠ []
    ∧ walkFn (sampleEnv (dateTimeOriginal "2022:06:01 14:22:10".toList))
        (sampleConfig actionPrint) zeroCounters
        "/d/0001.01.01 00.00.00.dt (original).jpg".toList sampleFileInfo none
      = .returned
        { counters := ⟨1, 1, 0, 0, 1⟩,
          out := [Out.arrow "0001.01.01 00.00.00.dt (original).jpg".toList
                    "2022.06.01 14.22.10.dt (original).jpg".toList,
                  Out.printing, Out.newline],
          renamed := none, err := none, decision := some Decision.printOnly } := by
  constructor <;> decide

/-- C4, as the code has it. For every media file whose base filename carries a date
other than the zero time, whose date resolves, whose new name differs from the existing
one, and whose new date is further from the date of the name than the threshold, in
whole milliseconds of the saturating difference, the callback warns and returns with
decision warn-drift-skip whatever the action: no rename is made and no error returned. -/
theorem drift_too_far_skips (env : Env) (cfg : Config) (c : Counters) (curFilepath : Str)
    (curFileInfo : FileInfo) (orig : Str) (old dateTaken : Time) (dateSource : Str)
    (hfile : curFileInfo.IsDir = false)
    (hext : supportedExts.contains
      (env.ToLower (TrimLeftDots (Ext (Split curFilepath).2))) = true)
    (hp : parseFilename env (TrimSuffix (Split curFilepath).2 (Ext (Split curFilepath).2))
      = .ok (orig, old))
    (hr : resolveDate env cfg curFilepath orig curFileInfo = .ok (dateTaken, dateSource))
    (hne : TrimSuffix (Split curFilepath).2 (Ext (Split curFilepath).2)
      ≠ getNewFilename env dateTaken dateSource orig)
    (hold : old ≠ Time.zero)
    (hfar : cfg.maxDatesDistanceInMilliseconds < |Milliseconds (dateTaken.Sub old)|) :
    walkFn env cfg c curFilepath curFileInfo none
      = .returned
        { counters := { c with totalFilesFound := c.totalFilesFound + 1,
                               totalMediaFound := c.totalMediaFound + 1,
                               totalMediaWarnings := c.totalMediaWarnings + 1 },
          out := [Out.arrow (Split curFilepath).2
                    (getNewFilename env dateTaken dateSource orig ++ ['.']
                      ++ env.ToLower (TrimLeftDots (Ext (Split curFilepath).2))),
                  Out.distance (dateTaken.Sub old), Out.warning],
          renamed := none, err := none, decision := some Decision.warnDriftSkip } := by
  rw [walkFn_media env cfg c curFilepath curFileInfo orig old dateTaken dateSource
    hfile hext hp hr,
    renameEntry_too_far env cfg _ curFilepath _ _ _ _ orig old dateTaken dateSource
      hne hold hfar]

/-- C4, witness: a name that encodes 2020-01-01 00:00:00, metadata of 2022, action
execute. -/
theorem drift_too_far_skips_witness :
    Date (sampleEnv []) 2020 1 1 0 0 0 0 .utc ≠ Time.zero
    ∧ (sampleConfig actionExecute).maxDatesDistanceInMilliseconds
        < |Milliseconds ((Date (sampleEnv []) 2022 6 1 14 22 10 0 .utc).Sub
            (Date (sampleEnv []) 2020 1 1 0 0 0 0 .utc))|
    ∧ walkFn (sampleEnv (dateTimeOriginal "2022:06:01 14:22:10".toList))
        (sampleConfig actionExecute) zeroCounters
        "/d/2020.01.01 00.00.00.dt (original).jpg".toList sampleFileInfo none
      = .returned
        { counters := ⟨1, 1, 0, 1, 0⟩,
          out := [Out.arrow "2020.01.01 00.00.00.dt (original).jpg".toList
                    "2022.06.01 14.22.10.dt (original).jpg".toList,
                  Out.distance 76256530000000000, Out.warning],
          renamed := none, err := none, decision := some Decision.warnDriftSkip } :=
  ⟨by decide, by decide,
    (drift_too_far_skips (sampleEnv (dateTimeOriginal "2022:06:01 14:22:10".toList))
      (sampleConfig actionExecute) zeroCounters
      "/d/2020.01.01 00.00.00.dt (original).jpg".toList sampleFileInfo "original".toList
      (Date (sampleEnv []) 2020 1 1 0 0 0 0 .utc)
      (Date (sampleEnv []) 2022 6 1 14 22 10 0 .utc) "dt".toList
      rfl (by decide) (by decide) (by decide) (by decide) (by decide) (by decide)).trans
      (by decide)⟩

/-- C4, counterexample. First, the name `0001.01.01 00.00.00.dt (original)` is canonical
and the metadata date 2022-06-01 14:22:10 is more than 26 hours away from the date of
the name, and yet under the action execute the file is renamed: the date of the name
equals `time.Time{}`, so the drift check is not made. Second, on a machine three hours
east of UTC with a threshold of one hour, the file `2023.11.15 01.13.20.dmz (original)`
last modified at the Unix time 1700000000 carries the prior date 2023-11-15 01:13:20
UTC, three hours after the new date, and yet the decision is already-correct: the new
name, written in the local zone, is the existing one, and the comparison of the names
comes before the drift check. -/
theorem drift_too_far_not_skipped :
    formattedFilenameRep "0001.01.01 00.00.00.dt (original)".toList ≠ []
    ∧ parseFilename (sampleEnv []) "0001.01.01 00.00.00.dt (original)".toList
      = .ok ("original".toList, Time.zero)
    ∧ walkFn (sampleEnv (dateTimeOriginal "2022:06:01 14:22:10".toList))
        (sampleConfig actionExecute) zeroCounters
        "/d/0001.01.01 00.00.00.dt (original).jpg".toList sampleFileInfo none
      = .returned
        { counters := ⟨1, 1, 0, 0, 1⟩,
          out := [Out.arrow "0001.01.01 00.00.00.dt (original).jpg".toList
                    "2022.06.01 14.22.10.dt (original).jpg".toList,
                  Out.renaming, Out.newline],
          renamed := some ("/d/0001.01.01 00.00.00.dt (original).jpg".toList,
                           "/d/2022.06.01 14.22.10.dt (original).jpg".toList),
          err := none, decision := some Decision.execute }
    ∧ parseFilename (sampleEnvEast (oneRecord []))
        "2023.11.15 01.13.20.dmz (original)".toList
      = .ok ("original".toList, Date (sampleEnv []) 2023 11 15 1 13 20 0 .utc)
    ∧ resolveDate (sampleEnvEast (oneRecord []))
        { sampleConfig actionExecute with maxDatesDistanceInMilliseconds := 3600000 }
        "/d/2023.11.15 01.13.20.dmz (original).jpg".toList "original".toList sampleFileInfo
      = .ok (sampleFileInfo.ModTime, "dmz".toList)
    ∧ sampleFileInfo.ModTime.Sub (Date (sampleEnv []) 2023 11 15 1 13 20 0 .utc)
      = -10800000000000
    ∧ checkDatesTooFar (-10800000000000) 3600000 = true
    ∧ walkFn (sampleEnvEast (oneRecord []))
        { sampleConfig actionExecute with maxDatesDistanceInMilliseconds := 3600000 }
        zeroCounters "/d/2023.11.15 01.13.20.dmz (original).jpg".toList sampleFileInfo none
      = .returned
        { counters := ⟨1, 1, 1, 0, 0⟩,
          out := [Out.okFilename "2023.11.15 01.13.20.dmz (original).jpg".toList],
          renamed := none, err := none, decision := some Decision.alreadyCorrect } := by
  refine ⟨?_, ?_, ?_, ?_, ?_, ?_, ?_, ?_⟩ <;> decide

/-- The drift check at the largest timestamp. For the comment
`timestamp=9223372036854775807` the sum of `time.Unix` wraps around: the date taken has
its seconds near the least `int64`, it is before every date of a file name, and `Sub`
saturates at `minDuration`; the calendar fields are read from the wall clock converted
to `uint64`, which gives the year 292277026596. -/
theorem walkFn_largest_timestamp :
    parseTimestamp "timestamp=9223372036854775807".toList
      = .ok ⟨-9223371974719179009, 0, .localZone⟩
    ∧ walkFn (sampleEnv (oneRecord [("Comment".toList,
          TagValue.str "timestamp=9223372036854775807".toList)]))
        (sampleConfig actionExecute) zeroCounters
        "/d/2020.01.01 00.00.00.dt (original).jpg".toList sampleFileInfo none
      = .returned
        { counters := ⟨1, 1, 0, 1, 0⟩,
          out := [Out.arrow "2020.01.01 00.00.00.dt (original).jpg".toList
                    "292277026596.12.04 15.30.07.dt (original).jpg".toList,
                  Out.distance (-9223372036854775808), Out.warning],
          renamed := none, err := none, decision := some Decision.warnDriftSkip } := by
  constructor <;> decide

/-! ## The year in the new name -/

/-- C2, at the failing input: the file `original.jpg` with
`DateTimeOriginal = "0999:06:01 14:22:10"`, timezone source media, action print. The
decision is print-only, but the new name is `999.06.01 14.22.10.dt (original).jpg`: the
year is written with `%d`, without the zero padding to four digits. With the year 2022
of the scenario of the specification the name is `2022.06.01 14.22.10.dt (original).jpg`. -/
theorem walkFn_year_not_padded :
    walkFn (sampleEnv (dateTimeOriginal "0999:06:01 14:22:10".toList))
        (sampleConfig actionPrint) zeroCounters "/d/original.jpg".toList sampleFileInfo none
      = .returned
        { counters := ⟨1, 1, 0, 0, 1⟩,
          out := [Out.arrow "original.jpg".toList
                    "999.06.01 14.22.10.dt (original).jpg".toList,
                  Out.printing, Out.newline],
          renamed := none, err := none, decision := some Decision.printOnly }
    ∧ walkFn (sampleEnv (dateTimeOriginal "2022:06:01 14:22:10".toList))
        (sampleConfig actionPrint) zeroCounters "/d/original.jpg".toList sampleFileInfo none
      = .returned
        { counters := ⟨1, 1, 0, 0, 1⟩,
          out := [Out.arrow "original.jpg".toList
                    "2022.06.01 14.22.10.dt (original).jpg".toList,
                  Out.printing, Out.newline],
          renamed := none, err := none, decision := some Decision.printOnly } := by
  constructor <;> decide

/-- C3, at the failing input: the file with `DateTimeOriginal = "0999:06:01 14:22:10"`
and original name `original` resolves to the date 0999-06-01 14:22:10 with source `dt`,
and `getNewFilename` gives it the name `999.06.01 14.22.10.dt (original)`. A file with
that base filename and the same metadata is not found already correct: the three-digit
year does not match the canonical pattern, the whole name is taken as the original
name, and the callback counts an action to rename it once more, under both actions. -/
theorem walkFn_not_idempotent :
    resolveDate (sampleEnv (dateTimeOriginal "0999:06:01 14:22:10".toList))
        (sampleConfig actionPrint) "/d/original.jpg".toList "original".toList sampleFileInfo
      = .ok (Date (sampleEnv []) 999 6 1 14 22 10 0 .utc, "dt".toList)
    ∧ getNewFilename (sampleEnv []) (Date (sampleEnv []) 999 6 1 14 22 10 0 .utc)
        "dt".toList "original".toList = "999.06.01 14.22.10.dt (original)".toList
    ∧ walkFn (sampleEnv (dateTimeOriginal "0999:06:01 14:22:10".toList))
        (sampleConfig actionPrint) zeroCounters
        "/d/999.06.01 14.22.10.dt (original).jpg".toList sampleFileInfo none
      = .returned
        { counters := ⟨1, 1, 0, 0, 1⟩,
          out := [Out.arrow "999.06.01 14.22.10.dt (original).jpg".toList
                    "999.06.01 14.22.10.dt (999.06.01 14.22.10.dt (original)).jpg".toList,
                  Out.printing, Out.newline],
          renamed := none, err := none, decision := some Decision.printOnly }
    ∧ walkFn (sampleEnv (dateTimeOriginal "0999:06:01 14:22:10".toList))
        (sampleConfig actionExecute) zeroCounters
        "/d/999.06.01 14.22.10.dt (original).jpg".toList sampleFileInfo none
      = .returned
        { counters := ⟨1, 1, 0, 0, 1⟩,
          out := [Out.arrow "999.06.01 14.22.10.dt (original).jpg".toList
                    "999.06.01 14.22.10.dt (999.06.01 14.22.10.dt (original)).jpg".toList,
                  Out.renaming, Out.newline],
          renamed := some ("/d/999.06.01 14.22.10.dt (original).jpg".toList,
            "/d/999.06.01 14.22.10.dt (999.06.01 14.22.10.dt (original)).jpg".toList),
          err := none, decision := some Decision.execute } := by
  refine ⟨?_, ?_, ?_, ?_⟩ <;> decide

/-! ## The calendar -/

theorem isLeap_iff (year : Int) :
    isLeap year = true ↔ year % 4 = 0 ∧ (year % 100 ≠ 0 ∨ year % 400 = 0) := by
  simp [isLeap]

theorem cycles_bounds (d q g c j k n : Int) (hq : q = d / 146097)
    (hg : g = (d - 146097 * q) / 36524) (hc : c = g - g / 4)
    (hj : j = (d - 146097 * q - 36524 * c) / 1461)
    (hk : k = (d - 146097 * q - 36524 * c - 1461 * j) / 365) (hn : n = k - k / 4) :
    0 ≤ c ∧ c ≤ 3 ∧ 0 ≤ j ∧ j ≤ 24 ∧ 0 ≤ n ∧ n ≤ 3
    ∧ 0 ≤ d - 146097 * q - 36524 * c - 1461 * j - 365 * n
    ∧ d - 146097 * q - 36524 * c - 1461 * j - 365 * n ≤ 365
    ∧ (d - 146097 * q - 36524 * c - 1461 * j - 365 * n = 365 → n = 3 ∧ (j < 24 ∨ c = 3)) := by
  have hr : 0 ≤ d - 146097 * q ∧ d - 146097 * q < 146097 := by omega
  have hg4 : 0 ≤ g ∧ g ≤ 4 := by omega
  have hc3 : 0 ≤ c ∧ c ≤ 3 ∧ 0 ≤ d - 146097 * q - 36524 * c
      ∧ d - 146097 * q - 36524 * c ≤ 36524
      ∧ (d - 146097 * q - 36524 * c = 36524 → c = 3) := by
    have : g = 0 ∨ g = 1 ∨ g = 2 ∨ g = 3 ∨ g = 4 := by omega
    rcases this with h | h | h | h | h <;> subst h <;> omega
  have hj24 : 0 ≤ j ∧ j ≤ 24 ∧ 0 ≤ d - 146097 * q - 36524 * c - 1461 * j
      ∧ d - 146097 * q - 36524 * c - 1461 * j < 1461
      ∧ (d - 146097 * q - 36524 * c - 1461 * j = 1460 → (j < 24 ∨ c = 3)) := by
    omega
  have hk4 : 0 ≤ k ∧ k ≤ 4 := by omega
  have : k = 0 ∨ k = 1 ∨ k = 2 ∨ k = 3 ∨ k = 4 := by omega
  rcases this with h | h | h | h | h <;> subst h <;> omega

theorem absYearDay_spec (d : Int) :
    daysSinceEpoch (absYearDay d).1 + (absYearDay d).2 = d
    ∧ 0 ≤ (absYearDay d).2
    ∧ (absYearDay d).2 < (if isLeap (absYearDay d).1 = true then 366 else 365) := by
  obtain ⟨h1, h2, h3, h4, h5, h6, h7, h8, h9⟩ := cycles_bounds d _ _ _ _ _ _ rfl rfl rfl rfl rfl rfl
  simp only [absYearDay, daysSinceEpoch, isLeap_iff]
  generalize d / 146097 = q at *
  generalize (d - 146097 * q) / 36524 = g at *
  generalize g - g / 4 = c at *
  generalize (d - 146097 * q - 36524 * c) / 1461 = j at *
  generalize (d - 146097 * q - 36524 * c - 1461 * j) / 365 = k at *
  generalize k - k / 4 = n at *
  refine ⟨by omega, by omega, ?_⟩
  split <;> omega

theorem daysBefore_values :
    daysBefore 0 = 0 ∧ daysBefore 1 = 31 ∧ daysBefore 2 = 59 ∧ daysBefore 3 = 90
    ∧ daysBefore 4 = 120 ∧ daysBefore 5 = 151 ∧ daysBefore 6 = 181 ∧ daysBefore 7 = 212
    ∧ daysBefore 8 = 243 ∧ daysBefore 9 = 273 ∧ daysBefore 10 = 304 ∧ daysBefore 11 = 334
    ∧ daysBefore 12 = 365 := by
  refine ⟨?_, ?_, ?_, ?_, ?_, ?_, ?_, ?_, ?_, ?_, ?_, ?_, ?_⟩ <;> rfl

/-- The month and the day of the month of the day `day` of a year without 29 February. -/
theorem monthDay_of_day (k day : Int) (hk : k = day / 31) (h0 : 0 ≤ day) (h1 : day < 365) :
    1 ≤ (if day ≥ daysBefore (k + 1) then (k + 1 + 1, day - daysBefore (k + 1) + 1)
        else (k + 1, day - daysBefore k + 1)).1
    ∧ (if day ≥ daysBefore (k + 1) then (k + 1 + 1, day - daysBefore (k + 1) + 1)
        else (k + 1, day - daysBefore k + 1)).1 ≤ 12
    ∧ 1 ≤ (if day ≥ daysBefore (k + 1) then (k + 1 + 1, day - daysBefore (k + 1) + 1)
        else (k + 1, day - daysBefore k + 1)).2
    ∧ (if day ≥ daysBefore (k + 1) then (k + 1 + 1, day - daysBefore (k + 1) + 1)
        else (k + 1, day - daysBefore k + 1)).2 ≤ 31
    ∧ daysBefore ((if day ≥ daysBefore (k + 1) then (k + 1 + 1, day - daysBefore (k + 1) + 1)
        else (k + 1, day - daysBefore k + 1)).1 - 1)
      + ((if day ≥ daysBefore (k + 1) then (k + 1 + 1, day - daysBefore (k + 1) + 1)
        else (k + 1, day - daysBefore k + 1)).2 - 1) = day
    ∧ ((if day ≥ daysBefore (k + 1) then (k + 1 + 1, day - daysBefore (k + 1) + 1)
        else (k + 1, day - daysBefore k + 1)).1 ≥ 3 ↔ day ≥ 59) := by
  obtain ⟨v0, v1, v2, v3, v4, v5, v6, v7, v8, v9, v10, v11, v12⟩ := daysBefore_values
  have : k = 0 ∨ k = 1 ∨ k = 2 ∨ k = 3 ∨ k = 4 ∨ k = 5 ∨ k = 6 ∨ k = 7 ∨ k = 8 ∨ k = 9
      ∨ k = 10 ∨ k = 11 := by omega
  rcases this with h | h | h | h | h | h | h | h | h | h | h | h <;> subst h <;>
    norm_num only [v0, v1, v2, v3, v4, v5, v6, v7, v8, v9, v10, v11, v12] <;>
    split <;> norm_num only [v0, v1, v2, v3, v4, v5, v6, v7, v8, v9, v10, v11, v12] <;>
    simp only [true_and, and_true, true_iff, false_iff] <;> omega

theorem monthDay_spec (year yday : Int) (h0 : 0 ≤ yday)
    (h1 : yday < (if isLeap year = true then 366 else 365)) :
    1 ≤ (monthDay year yday).1 ∧ (monthDay year yday).1 ≤ 12
    ∧ 1 ≤ (monthDay year yday).2 ∧ (monthDay year yday).2 ≤ 31
    ∧ daysBefore ((monthDay year yday).1 - 1)
        + (if isLeap year = true ∧ (monthDay year yday).1 ≥ 3 then 1 else 0)
        + ((monthDay year yday).2 - 1) = yday := by
  obtain ⟨v0, v1, -⟩ := daysBefore_values
  unfold monthDay
  by_cases hl : isLeap year = true
  · simp only [hl, if_true, true_and] at h1 ⊢
    by_cases h59 : yday = 31 + 29 - 1
    · simp only [h59, if_true]
      norm_num [v1]
    · simp only [h59, if_false]
      by_cases hgt : yday > 31 + 29 - 1
      · simp only [hgt, if_true]
        obtain ⟨a1, a2, a3, a4, a5, a6⟩ :=
          monthDay_of_day ((yday - 1) / 31) (yday - 1) rfl (by omega) (by omega)
        have h3 := a6.mpr (by omega)
        refine ⟨a1, a2, a3, a4, ?_⟩
        simp only [h3, if_true]
        omega
      · simp only [hgt, if_false]
        obtain ⟨a1, a2, a3, a4, a5, a6⟩ :=
          monthDay_of_day (yday / 31) yday rfl (by omega) (by omega)
        have h3 : ¬ _ := fun h => absurd (a6.mp h) (by omega)
        refine ⟨a1, a2, a3, a4, ?_⟩
        simp only [h3, if_false]
        omega
  · have hl2 : isLeap year = false := by simpa using hl
    simp only [hl2, Bool.false_eq_true, if_false, false_and] at h1 ⊢
    obtain ⟨a1, a2, a3, a4, a5, a6⟩ :=
      monthDay_of_day (yday / 31) yday rfl (by omega) (by omega)
    refine ⟨a1, a2, a3, a4, ?_⟩
    omega

/-- The date that `absDate` reads from a count of seconds is a date of the calendar, and
counting its days back gives the day of the count. -/
theorem absDate_spec (abs : Int) :
    1 ≤ (absDate abs).2.1 ∧ (absDate abs).2.1 ≤ 12
    ∧ 1 ≤ (absDate abs).2.2 ∧ (absDate abs).2.2 ≤ 31
    ∧ daysSinceEpoch (absDate abs).1 + daysBefore ((absDate abs).2.1 - 1)
        + (if isLeap (absDate abs).1 = true ∧ (absDate abs).2.1 ≥ 3 then 1 else 0)
        + ((absDate abs).2.2 - 1) = abs / 86400 := by
  obtain ⟨h1, h2, h3⟩ := absYearDay_spec (abs / 86400)
  obtain ⟨a1, a2, a3, a4, a5⟩ :=
    monthDay_spec (absYearDay (abs / 86400)).1 (absYearDay (abs / 86400)).2 h2 h3
  simp only [absDate]
  refine ⟨a1, a2, a3, a4, ?_⟩
  omega

/-! ## The verbs of fmt -/

theorem digitChar_digit : ∀ d : Nat, d < 10 →
    isDigit (Nat.digitChar d) = true ∧ (Nat.digitChar d).toNat - 48 = d := by
  decide

theorem toDigitsCore_step (f n : Nat) (ds : List Char) :
    Nat.toDigitsCore 10 (f + 1) n ds
      = if n / 10 = 0 then Nat.digitChar (n % 10) :: ds
        else Nat.toDigitsCore 10 f (n / 10) (Nat.digitChar (n % 10) :: ds) := by
  simp [Nat.toDigitsCore]

theorem toDigits_one (n : Nat) (h : n < 10) : Nat.toDigits 10 n = [Nat.digitChar n] := by
  unfold Nat.toDigits
  rw [toDigitsCore_step]
  have h1 : n / 10 = 0 := by omega
  have h2 : n % 10 = n := by omega
  simp [h1, h2]

theorem toDigits_two (n : Nat) (h0 : 10 ≤ n) (h : n < 100) :
    Nat.toDigits 10 n = [Nat.digitChar (n / 10), Nat.digitChar (n % 10)] := by
  unfold Nat.toDigits
  obtain ⟨k, rfl⟩ : ∃ k, n = k + 1 := ⟨n - 1, by omega⟩
  rw [toDigitsCore_step, toDigitsCore_step]
  have h1 : ¬ (k + 1) / 10 = 0 := by omega
  have h2 : (k + 1) / 10 / 10 = 0 := by omega
  have h3 : (k + 1) / 10 % 10 = (k + 1) / 10 := by omega
  simp [h1, h2, h3]

theorem toDigits_four (n : Nat) (h0 : 1000 ≤ n) (h : n < 10000) :
    Nat.toDigits 10 n = [Nat.digitChar (n / 1000), Nat.digitChar (n / 100 % 10),
      Nat.digitChar (n / 10 % 10), Nat.digitChar (n % 10)] := by
  unfold Nat.toDigits
  obtain ⟨k, rfl⟩ : ∃ k, n = k + 3 := ⟨n - 3, by omega⟩
  rw [show k + 3 + 1 = k + 1 + 1 + 1 + 1 from rfl, toDigitsCore_step, toDigitsCore_step,
    toDigitsCore_step, toDigitsCore_step]
  have h1 : ¬ (k + 3) / 10 = 0 := by omega
  have h2 : ¬ (k + 3) / 10 / 10 = 0 := by omega
  have h3 : ¬ (k + 3) / 10 / 10 / 10 = 0 := by omega
  have h4 : (k + 3) / 10 / 10 / 10 / 10 = 0 := by omega
  have h5 : (k + 3) / 10 / 10 / 10 % 10 = (k + 3) / 1000 := by omega
  have h6 : (k + 3) / 10 / 10 % 10 = (k + 3) / 100 % 10 := by omega
  simp [h1, h2, h3, h4, h5, h6]

theorem fmt02d_spec (x : Int) (h0 : 0 ≤ x) (h1 : x < 100) :
    Digits 2 (fmt02d x) ∧ (digitsVal (fmt02d x) : Int) = x := by
  obtain ⟨n, rfl⟩ := Int.eq_ofNat_of_zero_le h0
  have hn : n < 100 := by omega
  have hneg : ¬ ((n : Int) < 0) := by omega
  unfold fmt02d
  simp only [hneg, if_false, Int.natAbs_ofNat]
  by_cases h10 : n < 10
  · have h10i : (n : Int) < 10 := by omega
    obtain ⟨d1, d2⟩ := digitChar_digit n h10
    have dz : isDigit '0' = true := by decide
    simp only [h10i, if_true, toDigits_one n h10]
    refine ⟨⟨rfl, ?_⟩, ?_⟩
    · intro c hc
      simp only [List.mem_cons, List.mem_singleton, List.not_mem_nil, or_false] at hc
      rcases hc with rfl | rfl
      · exact dz
      · exact d1
    · simp only [digitsVal, List.foldl_cons, List.foldl_nil]
      have : ('0' : Char).toNat - 48 = 0 := by decide
      omega
  · have h10i : ¬ (n : Int) < 10 := by omega
    obtain ⟨d1, d2⟩ := digitChar_digit (n / 10) (by omega)
    obtain ⟨e1, e2⟩ := digitChar_digit (n % 10) (by omega)
    simp only [h10i, if_false, toDigits_two n (by omega) hn]
    refine ⟨⟨rfl, ?_⟩, ?_⟩
    · intro c hc
      simp only [List.mem_cons, List.mem_singleton, List.not_mem_nil, or_false] at hc
      rcases hc with rfl | rfl
      · exact d1
      · exact e1
    · simp only [digitsVal, List.foldl_cons, List.foldl_nil]
      omega

theorem fmtD_spec (x : Int) (h0 : 1000 ≤ x) (h1 : x ≤ 9999) :
    Digits 4 (fmtD x) ∧ (digitsVal (fmtD x) : Int) = x := by
  obtain ⟨n, rfl⟩ := Int.eq_ofNat_of_zero_le (by omega : 0 ≤ x)
  have hneg : ¬ ((n : Int) < 0) := by omega
  obtain ⟨a1, a2⟩ := digitChar_digit (n / 1000) (by omega)
  obtain ⟨b1, b2⟩ := digitChar_digit (n / 100 % 10) (by omega)
  obtain ⟨c1, c2⟩ := digitChar_digit (n / 10 % 10) (by omega)
  obtain ⟨d1, d2⟩ := digitChar_digit (n % 10) (by omega)
  unfold fmtD
  simp only [hneg, if_false, Int.natAbs_ofNat, toDigits_four n (by omega) (by omega)]
  refine ⟨⟨rfl, ?_⟩, ?_⟩
  · intro c hc
    simp only [List.mem_cons, List.mem_singleton, List.not_mem_nil, or_false] at hc
    rcases hc with rfl | rfl | rfl | rfl <;> assumption
  · simp only [digitsVal, List.foldl_cons, List.foldl_nil]
    omega

/-! ## Encoding, then decoding -/

theorem norm_of_range (hi lo base : Int) (h0 : 0 ≤ lo) (h1 : lo < base) :
    norm hi lo base = (hi, lo) := by
  unfold norm
  have a : ¬ lo < 0 := by omega
  have b : ¬ lo ≥ base := by omega
  simp [a, b]

theorem Date_of_fields (env : Env) (year month day hour min sec : Int)
    (hm0 : 1 ≤ month) (hm1 : month ≤ 12) (hh0 : 0 ≤ hour) (hh1 : hour < 24)
    (hmi0 : 0 ≤ min) (hmi1 : min < 60) (hs0 : 0 ≤ sec) (hs1 : sec < 60) :
    Date env year month day hour min sec 0 .utc
      = ⟨(daysSinceEpoch year + daysBefore (month - 1)
            + (if isLeap year = true ∧ month ≥ 3 then 1 else 0) + (day - 1)) * 86400
          + (hour * 3600 + min * 60 + sec), 0, .utc⟩ := by
  unfold Date
  simp only [norm_of_range year (month - 1) 12 (by omega) (by omega),
    norm_of_range sec 0 1000000000 (le_refl _) (by norm_num),
    norm_of_range min sec 60 hs0 hs1, norm_of_range hour min 60 hmi0 hmi1,
    norm_of_range day hour 24 hh0 hh1, Location.offsetAt, sub_add_cancel, ne_eq,
    not_true_eq_false, if_false, sub_zero]

theorem Date_absDate (env : Env) (t : Int) :
    Date env (absDate t).1 (absDate t).2.1 (absDate t).2.2
      (t % 86400 / 3600) (t % 3600 / 60) (t % 60) 0 .utc = ⟨t, 0, .utc⟩ := by
  obtain ⟨a1, a2, a3, a4, a5⟩ := absDate_spec t
  rw [Date_of_fields env _ _ _ _ _ _ a1 a2 (by omega) (by omega) (by omega) (by omega)
    (by omega) (by omega), a5]
  congr 1
  omega

theorem digits_ne_xy (ds : Str) (h : Digits 2 ds) : ds ≠ ['x', 'y'] := by
  rintro rfl
  have := h.2 'x' (List.mem_cons_self _ _)
  revert this
  decide

theorem isTag_of_source (s : Str)
    (hs : s = "dt".toList ∨ s = "dn".toList ∨ s = "dmz".toList ∨ s = "dm".toList) :
    IsTag ('.' :: s) := by
  refine Or.inr ⟨s, ?_, ?_, rfl⟩
  · rcases hs with rfl | rfl | rfl | rfl <;> decide
  · rcases hs with rfl | rfl | rfl | rfl <;> decide

theorem getNewFilename_eq (env : Env) (d : Time) (s n : Str) :
    getNewFilename env d s n
      = canonicalName (fmtD (d.Year env)) (fmt02d (d.Month env)) (fmt02d (d.Day env))
          (fmt02d (d.Hour env)) (fmt02d (d.Minute env)) (fmt02d (d.Second env))
          ('.' :: s) n := by
  simp [getNewFilename, canonicalName, List.append_assoc]

theorem daysBefore_le (m : Int) : daysBefore m ≤ 365 := by
  unfold daysBefore
  split <;> norm_num

/-- A count of seconds that `absDate` reads as a year up to 9999 is far below the
seconds that the conversion of `Time.wall` adds. -/
theorem absDate_year_le (abs : Int) (h : (absDate abs).1 ≤ 9999) : abs < 1000000000000 := by
  obtain ⟨a1, a2, a3, a4, a5⟩ := absDate_spec abs
  have hb := daysBefore_le ((absDate abs).2.1 - 1)
  simp only [daysSinceEpoch] at a5
  generalize (absDate abs).1 = y at *
  generalize daysBefore ((absDate abs).2.1 - 1) = b at *
  generalize (absDate abs).2.2 = dd at *
  have hl : (if isLeap y = true ∧ (absDate abs).2.1 ≥ 3 then (1 : Int) else 0) ≤ 1 := by
    split <;> norm_num
  generalize (if isLeap y = true ∧ (absDate abs).2.1 ≥ 3 then (1 : Int) else 0) = l at *
  omega

/-- The wall clock of a time in UTC whose year is read as at most 9999 is its `sec`. -/
theorem wall_of_year (env : Env) (d : Time) (hloc : d.loc = .utc)
    (hy1 : d.Year env ≤ 9999) : d.wall env = d.sec := by
  have habs : d.abs env = d.sec := by
    simp [Time.abs, hloc, Location.offsetAt]
  have hlt := absDate_year_le (d.wall env) hy1
  unfold Time.wall at hlt ⊢
  rw [habs] at hlt ⊢
  unfold internalToAbsolute at hlt ⊢
  split
  · rename_i hw
    rw [if_pos hw] at hlt
    omega
  · rfl

theorem parseFilename_encode (env : Env) (d : Time) (s n : Str)
    (hloc : d.loc = .utc) (hns : d.nsec = 0)
    (hy0 : 1000 ≤ d.Year env) (hy1 : d.Year env ≤ 9999)
    (hs : s = "dt".toList ∨ s = "dn".toList ∨ s = "dmz".toList ∨ s = "dm".toList)
    (hn : ∀ c ∈ n, c ≠ '\n') :
    parseFilename env (getNewFilename env d s n) = .ok (n, d) := by
  have habs : d.wall env = d.sec := wall_of_year env d hloc hy1
  obtain ⟨a1, a2, a3, a4, -⟩ := absDate_spec d.sec
  have hY := fmtD_spec (d.Year env) hy0 hy1
  have hM := fmt02d_spec (d.Month env) (by simp only [Time.Month, habs]; omega)
    (by simp only [Time.Month, habs]; omega)
  have hD := fmt02d_spec (d.Day env) (by simp only [Time.Day, habs]; omega)
    (by simp only [Time.Day, habs]; omega)
  have hH := fmt02d_spec (d.Hour env) (by simp only [Time.Hour, habs]; omega)
    (by simp only [Time.Hour, habs]; omega)
  have hMi := fmt02d_spec (d.Minute env) (by simp only [Time.Minute, habs]; omega)
    (by simp only [Time.Minute, habs]; omega)
  have hS := fmt02d_spec (d.Second env) (by simp only [Time.Second, habs]; omega)
    (by simp only [Time.Second, habs]; omega)
  rw [getNewFilename_eq,
    parseFilename_of_match env _ _ _ _ _ _ _ _ _
      (formattedFilenameRep_canonical _ _ _ _ _ _ _ _ hY.1 hM.1 hD.1 hH.1 hMi.1
        (Or.inl hS.1) (isTag_of_source s hs) hn)
      hY.1 hM.1 hD.1 hH.1 hMi.1 (Or.inl hS.1)]
  simp only [digits_ne_xy _ hS.1, if_false, hY.2, hM.2, hD.2, hH.2, hMi.2, hS.2]
  have hd : d = ⟨d.sec, 0, .utc⟩ := by
    cases d
    simp_all
  have := Date_absDate env d.sec
  simp only [Time.Year, Time.Month, Time.Day, Time.Hour, Time.Minute, Time.Second, habs, this]
  rw [← hd]

/-- C1, as the code has it. For every date in UTC with whole seconds and a year from
1000 to 9999, every source tag among `dt`, `dn`, `dmz`, `dm` and every original name
without line feed, `parseFilename (getNewFilename d s n)` returns the name `n`, the
date `d` and no error. -/
theorem parseFilename_getNewFilename (env : Env) (d : Time) (s n : Str)
    (hloc : d.loc = .utc) (hns : d.nsec = 0)
    (hy0 : 1000 ≤ d.Year env) (hy1 : d.Year env ≤ 9999)
    (hs : s = "dt".toList ∨ s = "dn".toList ∨ s = "dmz".toList ∨ s = "dm".toList)
    (hn : ∀ c ∈ n, c ≠ '\n') :
    parseFilename env (getNewFilename env d s n) = .ok (n, d) :=
  parseFilename_encode env d s n hloc hns hy0 hy1 hs hn

/-- C1, witness: 2022-06-01 14:22:10 UTC, source `dt`, name `original`. -/
theorem parseFilename_getNewFilename_witness :
    (1000 ≤ (Time.mk 63789690130 0 .utc).Year (sampleEnv [])
      ∧ (Time.mk 63789690130 0 .utc).Year (sampleEnv []) ≤ 9999)
    ∧ getNewFilename (sampleEnv []) ⟨63789690130, 0, .utc⟩ "dt".toList "original".toList
      = "2022.06.01 14.22.10.dt (original)".toList
    ∧ parseFilename (sampleEnv [])
        (getNewFilename (sampleEnv []) ⟨63789690130, 0, .utc⟩ "dt".toList "original".toList)
      = .ok ("original".toList, ⟨63789690130, 0, .utc⟩) :=
  ⟨by decide, by decide,
    parseFilename_getNewFilename (sampleEnv []) ⟨63789690130, 0, .utc⟩ "dt".toList
      "original".toList rfl rfl (by decide) (by decide) (Or.inl rfl) (by decide)⟩

/-- C1, counterexample. The date 2022-06-01 17:22:10 in the zone three hours east of UTC
(14:22:10 UTC) is written as `2022.06.01 17.22.10` and read back as 17:22:10 UTC, an
instant three hours later; a date with half a second is read back without it; the name `a`, line
feed, `b` is not read back (the whole encoded name is returned, with the zero time);
the year 999 is written with three digits and not read back either. -/
theorem parseFilename_getNewFilename_fails :
    parseFilename (sampleEnv [])
        (getNewFilename (sampleEnv []) ⟨63789690130, 0, .fixed "+03:00".toList 10800⟩
          "dt".toList "original".toList)
      = .ok ("original".toList, ⟨63789700930, 0, .utc⟩)
    ∧ parseFilename (sampleEnv [])
        (getNewFilename (sampleEnv []) ⟨63789690130, 500000000, .utc⟩
          "dt".toList "original".toList)
      = .ok ("original".toList, ⟨63789690130, 0, .utc⟩)
    ∧ parseFilename (sampleEnv [])
        (getNewFilename (sampleEnv []) ⟨63789690130, 0, .utc⟩ "dt".toList ['a', '\n', 'b'])
      = .ok ("2022.06.01 14.22.10.dt (a\nb)".toList, Time.zero)
    ∧ parseFilename (sampleEnv [])
        (getNewFilename (sampleEnv []) (Date (sampleEnv []) 999 6 1 14 22 10 0 .utc)
          "dt".toList "original".toList)
      = .ok ("999.06.01 14.22.10.dt (original)".toList, Time.zero) := by
  refine ⟨?_, ?_, ?_, ?_⟩ <;> decide

/-! ## The metadata timestamp -/

/-- C13, at the failing input: the file `original.jpg` whose metadata record has none of
the four date tags and the comment `hello`. `parseTimestamp` finds no timestamp and
returns the zero time with a nil error, so that `processExif` succeeds: the date is
not looked for in the file name or the modification time, and the new name carries the
zero time with the source `dt`. -/
theorem walkFn_comment_without_timestamp :
    parseTimestamp "hello".toList = .ok Time.zero
    ∧ resolveDate (sampleEnv (oneRecord [("Comment".toList, TagValue.str "hello".toList)]))
        (sampleConfig actionPrint) "/d/original.jpg".toList "original".toList sampleFileInfo
      = .ok (Time.zero, "dt".toList)
    ∧ walkFn (sampleEnv (oneRecord [("Comment".toList, TagValue.str "hello".toList)]))
        (sampleConfig actionPrint) zeroCounters "/d/original.jpg".toList sampleFileInfo none
      = .returned
        { counters := ⟨1, 1, 0, 0, 1⟩,
          out := [Out.arrow "original.jpg".toList
                    "1.01.01 00.00.00.dt (original).jpg".toList,
                  Out.printing, Out.newline],
          renamed := none, err := none, decision := some Decision.printOnly } := by
  refine ⟨?_, ?_, ?_⟩ <;> decide

/-- C15, at the failing input: the value `2022:06:01 14:22:10+03:00`. The timezone is
read from submatch 8, the fraction of the second, which is empty here: without offset
tags the date is built in UTC, and with the tag `OffsetTime = "-05:30"` it is built in
the zone of the tag; the inline offset `+03:00` is used in neither case. -/
theorem parseExifDate_ignores_inline_offset :
    (exifDateRep "2022:06:01 14:22:10+03:00".toList).get? 8 = some []
    ∧ (exifDateRep "2022:06:01 14:22:10+03:00".toList).get? 9 = some "+03:00".toList
    ∧ parseExifDate (sampleEnv []) "2022:06:01 14:22:10+03:00".toList []
      = .ok (Date (sampleEnv []) 2022 6 1 14 22 10 0 .utc)
    ∧ parseExifDate (sampleEnv []) "2022:06:01 14:22:10+03:00".toList
        [("OffsetTime".toList, TagValue.str "-05:30".toList)]
      = .ok (Date (sampleEnv []) 2022 6 1 14 22 10 0 (.fixed "-05:30".toList (-9000))) := by
  refine ⟨?_, ?_, ?_, ?_⟩ <;> decide

/-- C19, at the failing input: the value `2022:06:01 14:22:10.50` without offset tags.
Submatch 8, the two digits `50` of the fraction, is also taken as the timezone:
`timezoneRep` does not match it and `parseTimezone` indexes the empty slice, which
panics. -/
theorem parseExifDate_fraction_panics :
    (exifDateRep "2022:06:01 14:22:10.50".toList).get? 8 = some "50".toList
    ∧ timezoneRep "50".toList = []
    ∧ parseTimezone "50".toList = .panic
    ∧ parseExifDate (sampleEnv []) "2022:06:01 14:22:10.50".toList [] = .panic
    ∧ walkFn (sampleEnv (dateTimeOriginal "2022:06:01 14:22:10.50".toList))
        (sampleConfig actionPrint) zeroCounters "/d/original.jpg".toList sampleFileInfo none
      = .panicked := by
  refine ⟨?_, ?_, ?_, ?_, ?_⟩ <;> decide

/-! ## The timezone resolver -/

/-- C16, at the failing inputs: for `+03:00` the zone that `parseTimezone` returns has
the offset 1 * 3 * 60 * 0 = 0, and for `-05:30` the offset -1 * 5 * 60 * 30 = -9000
seconds (150 minutes west), where the claim has 180 minutes east and 330 minutes
west. -/
theorem parseTimezone_multiplies :
    parseTimezone "+03:00".toList = .ok (Location.fixed "+03:00".toList 0)
    ∧ parseTimezone "-05:30".toList = .ok (Location.fixed "-05:30".toList (-9000))
    ∧ getNewFilename (sampleEnv [])
        ((Date (sampleEnv []) 2022 6 1 14 22 10 0 .utc).In (Location.fixed "+03:00".toList 0))
        "dt".toList "original".toList = "2022.06.01 14.22.10.dt (original)".toList := by
  refine ⟨?_, ?_, ?_⟩ <;> decide

/-- C17, at the failing inputs: for the empty string, `abc` and `3:00` the pattern
`timezoneRep` does not match, `parseTimezone` indexes the empty slice and panics, and so
does `runRename`; only for `03:`, which the pattern matches with an empty minute group,
an error is returned. -/
theorem parseTimezone_panics :
    parseTimezone [] = .panic
    ∧ parseTimezone "abc".toList = .panic
    ∧ parseTimezone "3:00".toList = .panic
    ∧ runRename (sampleEnv []) ⟨none, none, []⟩ (sampleFlags "abc".toList) = .panicked
    ∧ parseTimezone "03:".toList
      = .error (Err.wrap (Err.numError [] false) "parse timezoneHour")
    ∧ runRename (sampleEnv []) ⟨none, none, []⟩ (sampleFlags "03:".toList)
      = .returned (some (Err.wrap (Err.wrap (Err.numError [] false) "parse timezoneHour")
          "commands/rename->runRename(): parseTimezone(timezoneCustomString)")) none := by
  refine ⟨?_, ?_, ?_, ?_, ?_, ?_⟩ <;> decide

/-! ## The end of the command -/

/-- C18, at the failing input: the walk ends with the error of its first entry and
`exifTool.Close` fails too. The deferred function overwrites the result: `runRename`
returns the error of `Close`, and the error of the walk is lost. When `Close`
succeeds the error of the walk is returned. -/
theorem runRename_close_error_masks :
    runRename (sampleEnv [])
        ⟨none, some (Err.foreign "close failed"),
          [⟨"/d/a.jpg".toList, sampleFileInfo, some (Err.foreign "lstat failed")⟩]⟩
        (sampleFlags "00:00".toList)
      = .returned (some (Err.wrap (Err.foreign "close failed") "exifTool.Close()"))
          (some ⟨zeroCounters, [], []⟩)
    ∧ runRename (sampleEnv [])
        ⟨none, none,
          [⟨"/d/a.jpg".toList, sampleFileInfo, some (Err.foreign "lstat failed")⟩]⟩
        (sampleFlags "00:00".toList)
      = .returned (some (Err.wrap (Err.wrap (Err.foreign "lstat failed") "err")
          "filepath.Walk()")) (some ⟨zeroCounters, [], []⟩) := by
  constructor <;> decide

/-! ## Metadata that is not available -/

theorem processExif_unavailable (env : Env) (path : Str)
    (h : (env.ExtractMetadata path).length ≠ 1
      ∨ ∃ r e, env.ExtractMetadata path = [r] ∧ r.Err = some e) :
    ∃ e, processExif env path = .error e ∧ e ≠ Err.errDateTakenInExifNotFound
      ∧ (e = Err.new "len(fileInfos) != 1"
        ∨ ∃ e0, e = Err.wrap e0 "commands/rename->processExif(): fileInfo.Err") := by
  unfold processExif
  rcases h with h | ⟨r, e, hr, he⟩
  · match hl : env.ExtractMetadata path with
    | [] => exact ⟨_, rfl, by simp, Or.inl rfl⟩
    | [r] => simp [hl] at h
    | _ :: _ :: _ => exact ⟨_, rfl, by simp, Or.inl rfl⟩
  · rw [hr]
    simp only [he]
    exact ⟨_, rfl, by simp, Or.inr ⟨e, rfl⟩⟩

theorem resolveDate_of_error (env : Env) (cfg : Config) (curFilepath orig : Str)
    (curFileInfo : FileInfo) (e : Err) (he : processExif env curFilepath = .error e)
    (hne : e ≠ Err.errDateTakenInExifNotFound) :
    resolveDate env cfg curFilepath orig curFileInfo = .error (Err.wrap e "processExif()") := by
  unfold resolveDate
  simp [he, hne]

theorem walkFn_resolve_error (env : Env) (cfg : Config) (c : Counters) (curFilepath : Str)
    (curFileInfo : FileInfo) (e : Err) (hfile : curFileInfo.IsDir = false)
    (hext : supportedExts.contains
      (env.ToLower (TrimLeftDots (Ext (Split curFilepath).2))) = true)
    (hr : ∀ orig, resolveDate env cfg curFilepath orig curFileInfo = .error e) :
    walkFn env cfg c curFilepath curFileInfo none
      = .returned { counters := { c with totalFilesFound := c.totalFilesFound + 1,
                                         totalMediaFound := c.totalMediaFound + 1 },
                    out := [], renamed := none, err := some e, decision := none } := by
  obtain ⟨orig, date, hp⟩ := parseFilename_total env
    (TrimSuffix (Split curFilepath).2 (Ext (Split curFilepath).2))
  unfold walkFn
  simp only [hfile, hp, hext, hr orig]
  simp

/-- C14, as the code has it. For every supported file for which the metadata provider
returns a number of records different from one, or one record that carries a per-file
error, the callback returns an error, the error of `processExif` wrapped with
`processExif()`: no date is looked for in the file name or the modification time, no
decision is reached and nothing is renamed. -/
theorem walkFn_metadata_unavailable (env : Env) (cfg : Config) (c : Counters)
    (curFilepath : Str) (curFileInfo : FileInfo) (hfile : curFileInfo.IsDir = false)
    (hext : supportedExts.contains
      (env.ToLower (TrimLeftDots (Ext (Split curFilepath).2))) = true)
    (h : (env.ExtractMetadata curFilepath).length ≠ 1
      ∨ ∃ r e, env.ExtractMetadata curFilepath = [r] ∧ r.Err = some e) :
    ∃ e, (e = Err.new "len(fileInfos) != 1"
        ∨ ∃ e0, e = Err.wrap e0 "commands/rename->processExif(): fileInfo.Err")
      ∧ walkFn env cfg c curFilepath curFileInfo none
        = .returned { counters := { c with totalFilesFound := c.totalFilesFound + 1,
                                           totalMediaFound := c.totalMediaFound + 1 },
                      out := [], renamed := none,
                      err := some (Err.wrap e "processExif()"), decision := none } := by
  obtain ⟨e, he, hne, hform⟩ := processExif_unavailable env curFilepath h
  exact ⟨e, hform, walkFn_resolve_error env cfg c curFilepath curFileInfo _ hfile hext
    (fun orig => resolveDate_of_error env cfg curFilepath orig curFileInfo e he hne)⟩

/-- C14, witness: a metadata provider that returns no record. -/
theorem walkFn_metadata_unavailable_witness :
    sampleFileInfo.IsDir = false
    ∧ ((sampleEnv []).ExtractMetadata "/d/original.jpg".toList).length ≠ 1
    ∧ ∃ e, (e = Err.new "len(fileInfos) != 1"
        ∨ ∃ e0, e = Err.wrap e0 "commands/rename->processExif(): fileInfo.Err")
      ∧ walkFn (sampleEnv []) (sampleConfig actionPrint) zeroCounters
          "/d/original.jpg".toList sampleFileInfo none
        = .returned { counters := { zeroCounters with
                        totalFilesFound := zeroCounters.totalFilesFound + 1,
                        totalMediaFound := zeroCounters.totalMediaFound + 1 },
                      out := [], renamed := none,
                      err := some (Err.wrap e "processExif()"), decision := none } :=
  ⟨rfl, by decide,
    walkFn_metadata_unavailable (sampleEnv []) (sampleConfig actionPrint) zeroCounters
      "/d/original.jpg".toList sampleFileInfo rfl (by decide) (Or.inl (by decide))⟩

/-- C14, counterexample: for the file `IMG 2023-01-15 10.30.00.jpg`, whose name carries
a date, a provider that returns no record, and one that returns a record with a
per-file error, make the callback return an error; the date of the name and the
modification time are not tried. -/
theorem walkFn_metadata_unavailable_is_fatal :
    walkFn (sampleEnv []) (sampleConfig actionPrint) zeroCounters
        "/d/IMG 2023-01-15 10.30.00.jpg".toList sampleFileInfo none
      = .returned { counters := ⟨1, 1, 0, 0, 0⟩, out := [], renamed := none,
                    err := some (Err.wrap (Err.new "len(fileInfos) != 1") "processExif()"),
                    decision := none }
    ∧ walkFn (sampleEnv [{ Fields := [], Err := some (Err.foreign "file not readable") }])
        (sampleConfig actionPrint) zeroCounters
        "/d/IMG 2023-01-15 10.30.00.jpg".toList sampleFileInfo none
      = .returned { counters := ⟨1, 1, 0, 0, 0⟩, out := [], renamed := none,
                    err := some (Err.wrap (Err.wrap (Err.foreign "file not readable")
                      "commands/rename->processExif(): fileInfo.Err") "processExif()"),
                    decision := none } := by
  constructor <;> decide

/-! ## The date in the file name -/

theorem optAny_map {α β : Type} (f : α → β) (k : Str → Option α) (s : Str) :
    (optAny k s).map f = optAny (fun t => (k t).map f) s := by
  unfold optAny
  cases s with
  | nil => cases h : k [] <;> simp [Option.orElse, h]
  | cons c t =>
    by_cases hc : (c != '\n') = true
    · simp only [hc, if_true]
      cases h : k t <;> simp [Option.orElse, h]
    · simp only [hc, if_false]
      simp [Option.orElse]

theorem bind_map {α β γ : Type} (o : Option α) (g : α → Option β) (f : β → γ) :
    (o.bind g).map f = o.bind fun x => (g x).map f := by
  cases o <;> simp

theorem bind_some_eq_map {α β : Type} (o : Option α) (f : α → β) :
    (o.bind fun a => some (f a)) = o.map f := by
  cases o <;> simp

theorem dateInFilenameAt_eq (s : Str) :
    dateInFilenameAt s
      = (digitsN 4 s).bind fun y => (fieldsAfter 5 y.2).map fun r => y.1 :: r := by
  unfold dateInFilenameAt
  simp only [fieldsAfter, optAny_map, bind_map, Option.map_map, Function.comp_def,
    Option.map_some', bind_some_eq_map]

theorem digitCount_digits (n : Nat) (ds : Str) (h : Digits n ds) : digitCount ds = n := by
  obtain ⟨hl, hd⟩ := h
  unfold digitCount
  rw [List.countP_eq_length.mpr hd, hl]

theorem digitCount_append (a b : Str) : digitCount (a ++ b) = digitCount a + digitCount b := by
  simp [digitCount, List.countP_append]

theorem digitCount_cons_le (c : Char) (t : Str) : digitCount t ≤ digitCount (c :: t) := by
  unfold digitCount
  by_cases h : isDigit c = true <;> simp [List.countP_cons, h]

theorem digitsN_count (n : Nat) (s : Str) (p : Str × Str) (h : digitsN n s = some p) :
    digitCount s = n + digitCount p.2 := by
  obtain ⟨h1, h2⟩ := digitsN_some n s p h
  rw [h1, digitCount_append, digitCount_digits n p.1 h2]

theorem optAny_some {α : Type} (k : Str → Option α) (s : Str) (v : α)
    (h : optAny k s = some v) : (∃ c t, s = c :: t ∧ k t = some v) ∨ k s = some v := by
  unfold optAny at h
  cases s with
  | nil =>
    simp only [Option.orElse] at h
    exact Or.inr h
  | cons c t =>
    by_cases hc : (c != '\n') = true
    · simp only [hc, if_true] at h
      cases hk : k t with
      | some w =>
        rw [hk] at h
        simp only [Option.orElse, Option.some.injEq] at h
        exact Or.inl ⟨c, t, rfl, by rw [hk, h]⟩
      | none =>
        rw [hk] at h
        simp only [Option.orElse] at h
        exact Or.inr h
    · simp only [hc, if_false, Option.orElse] at h
      exact Or.inr h

/-- A text in which `n` fields are found has at least `2 * n` digits. -/
theorem fieldsAfter_count (n : Nat) (s : Str) (gs : List Str)
    (h : fieldsAfter n s = some gs) : 2 * n ≤ digitCount s := by
  induction n generalizing s gs with
  | zero => simp
  | succ n ih =>
    simp only [fieldsAfter] at h
    have key : ∀ t, ((digitsN 2 t).bind fun f => (fieldsAfter n f.2).map fun r => f.1 :: r)
        = some gs → 2 * (n + 1) ≤ digitCount t := by
      intro t ht
      simp only [Option.bind_eq_some, Option.map_eq_some'] at ht
      obtain ⟨f, hf, r, hr, -⟩ := ht
      have h1 := digitsN_count 2 t f hf
      have h2 := ih f.2 r hr
      omega
    rcases optAny_some _ s gs h with ⟨c, t, rfl, ht⟩ | hs
    · exact le_trans (key t ht) (digitCount_cons_le c t)
    · exact key s hs

/-- The text of `n` fields of two digits, each after its separator, and what follows. -/
theorem fieldsAfter_join (l : List (Str × Str)) (post : Str)
    (hl : ∀ p ∈ l, IsSeparator p.1 ∧ Digits 2 p.2) (hpost : digitCount post = 0) :
    fieldsAfter l.length (l.foldr (fun p acc => p.1 ++ (p.2 ++ acc)) post)
        = some (l.map fun p => p.2)
    ∧ digitCount (l.foldr (fun p acc => p.1 ++ (p.2 ++ acc)) post) = 2 * l.length := by
  induction l with
  | nil => exact ⟨rfl, by simpa using hpost⟩
  | cons p l ih =>
    obtain ⟨ih1, ih2⟩ := ih (fun q hq => hl q (List.mem_cons_of_mem _ hq))
    obtain ⟨hsep, hf⟩ := hl p (List.mem_cons_self _ _)
    generalize hR : l.foldr (fun p acc => p.1 ++ (p.2 ++ acc)) post = R at ih1 ih2
    simp only [List.foldr_cons, List.length_cons, List.map_cons, hR]
    have hk : ((digitsN 2 (p.2 ++ R)).bind fun f =>
        (fieldsAfter l.length f.2).map fun r => f.1 :: r) = some (p.2 :: l.map fun p => p.2) := by
      simp [digitsN_append 2 p.2 R hf, ih1]
    have hcount : digitCount (p.1 ++ (p.2 ++ R)) = 2 * (l.length + 1) := by
      rw [digitCount_append, digitCount_append, digitCount_digits 2 p.2 hf, ih2]
      rcases hsep with h0 | ⟨c, hc, hnd, -⟩
      · simp [h0, digitCount]
        omega
      · simp [hc, digitCount, hnd]
        omega
    refine ⟨?_, hcount⟩
    rcases hsep with h0 | ⟨c, hc, hnd, hnl⟩
    · rw [h0, List.nil_append]
      obtain ⟨hlen, hdig⟩ := hf
      match hp2 : p.2, hlen with
      | [a, b], _ =>
        rw [hp2] at hk hdig
        have ha : isDigit a = true := hdig a (by simp)
        have hanl : (a != '\n') = true := by
          have : a ≠ '\n' := by
            rintro rfl
            revert ha
            decide
          simpa using this
        have hfail : ((digitsN 2 (b :: R)).bind fun f =>
            (fieldsAfter l.length f.2).map fun r => f.1 :: r) = none := by
          cases hd : digitsN 2 (b :: R) with
          | none => rfl
          | some f =>
            have h1 := digitsN_count 2 (b :: R) f hd
            have hb : isDigit b = true := hdig b (by simp)
            have h2 : digitCount (b :: R) = 1 + 2 * l.length := by
              simp [digitCount, List.countP_cons, hb] at ih2 ⊢
              omega
            cases hfa : fieldsAfter l.length f.2 with
            | none => simp [hfa]
            | some r =>
              have := fieldsAfter_count l.length f.2 r hfa
              omega
        simp only [fieldsAfter, optAny, List.cons_append, List.nil_append, hanl, if_true,
          hfail, Option.orElse]
        exact hk
    · rw [hc]
      have hcnl : (c != '\n') = true := by simpa using hnl
      simp only [fieldsAfter, optAny, List.cons_append, List.nil_append, hcnl, if_true, hk,
        Option.orElse]

theorem dateInFilenameAt_non_digit (c : Char) (t : Str) (hc : isDigit c = false) :
    dateInFilenameAt (c :: t) = none := by
  simp [dateInFilenameAt, digitsN, hc]

theorem dateInFilenameRep_skip (pre rest : Str) (hpre : digitCount pre = 0) :
    dateInFilenameRep (pre ++ rest) = dateInFilenameRep rest := by
  induction pre with
  | nil => rfl
  | cons c t ih =>
    have hc : isDigit c = false := by
      by_contra h
      have h2 : isDigit c = true := by simpa using h
      simp [digitCount, List.countP_cons, h2] at hpre
    have ht : digitCount t = 0 := by
      have := digitCount_cons_le c t
      omega
    rw [List.cons_append, dateInFilenameRep, dateInFilenameAt_non_digit c _ hc]
    exact ih ht

theorem dateInFilenameRep_date (pre year s1 month s2 day s3 hour s4 min s5 sec post : Str)
    (hpre : digitCount pre = 0) (hpost : digitCount post = 0)
    (hy : Digits 4 year) (hmo : Digits 2 month) (hd : Digits 2 day) (hh : Digits 2 hour)
    (hmi : Digits 2 min) (hs : Digits 2 sec)
    (h1 : IsSeparator s1) (h2 : IsSeparator s2) (h3 : IsSeparator s3) (h4 : IsSeparator s4)
    (h5 : IsSeparator s5) :
    dateInFilenameRep (pre ++ (year ++ (s1 ++ (month ++ (s2 ++ (day ++ (s3 ++ (hour ++
        (s4 ++ (min ++ (s5 ++ (sec ++ post))))))))))))
      = [[], year, month, day, hour, min, sec] := by
  rw [dateInFilenameRep_skip _ _ hpre]
  obtain ⟨hf, -⟩ := fieldsAfter_join
    [(s1, month), (s2, day), (s3, hour), (s4, min), (s5, sec)] post
    (by
      intro p hp
      simp only [List.mem_cons, List.mem_singleton, List.not_mem_nil, or_false] at hp
      rcases hp with rfl | rfl | rfl | rfl | rfl
      · exact ⟨h1, hmo⟩
      · exact ⟨h2, hd⟩
      · exact ⟨h3, hh⟩
      · exact ⟨h4, hmi⟩
      · exact ⟨h5, hs⟩) hpost
  simp only [List.foldr_cons, List.foldr_nil, List.length_cons, List.length_nil,
    List.map_cons, List.map_nil] at hf
  have hat : dateInFilenameAt (year ++ (s1 ++ (month ++ (s2 ++ (day ++ (s3 ++ (hour ++
        (s4 ++ (min ++ (s5 ++ (sec ++ post)))))))))))
      = some [year, month, day, hour, min, sec] := by
    rw [dateInFilenameAt_eq, digitsN_append 4 year _ hy]
    simp only [Option.some_bind]
    rw [hf]
    rfl
  obtain ⟨hlen, -⟩ := hy
  match year, hlen with
  | a :: t, _ =>
    rw [List.cons_append] at hat ⊢
    rw [dateInFilenameRep, hat]

theorem parseDateFromFilename_of_match (env : Env) (s year month day hour min sec : Str)
    (hm : dateInFilenameRep s = [[], year, month, day, hour, min, sec])
    (hy : Digits 4 year) (hmo : Digits 2 month) (hd : Digits 2 day) (hh : Digits 2 hour)
    (hmi : Digits 2 min) (hs : Digits 2 sec) :
    parseDateFromFilename env s
      = .ok (Date env (digitsVal year) (digitsVal month) (digitsVal day) (digitsVal hour)
          (digitsVal min) (digitsVal sec) 0 .utc) := by
  unfold parseDateFromFilename
  rw [hm]
  simp [index, Outcome.bind, Outcome.wrapErr,
    parseDate_digits env year month day hour min sec hy hmo hd hh hmi hs]

theorem resolveDate_of_filename (env : Env) (cfg : Config) (curFilepath orig : Str)
    (curFileInfo : FileInfo) (d : Time)
    (he : processExif env curFilepath = .error Err.errDateTakenInExifNotFound)
    (hd : parseDateFromFilename env orig = .ok d) :
    resolveDate env cfg curFilepath orig curFileInfo
      = .ok (applyTimezone cfg d "dn".toList) := by
  unfold resolveDate
  simp [he, hd]

/-- Names whose date is read as written. For every file whose metadata yields no date
and whose original filename holds, with no other digit in the name, the digit groups
YYYY, MM, DD, HH, MM, SS with between two groups either nothing or one character that is
neither a digit nor a line feed, the resolved date is the date that `time.Date` builds
in UTC from the six fields, moved into the custom zone when the timezone source is
custom, and the source tag is `dn`. -/
theorem resolveDate_date_in_filename (env : Env) (cfg : Config) (curFilepath : Str)
    (curFileInfo : FileInfo)
    (pre year s1 month s2 day s3 hour s4 min s5 sec post : Str)
    (he : processExif env curFilepath = .error Err.errDateTakenInExifNotFound)
    (hpre : digitCount pre = 0) (hpost : digitCount post = 0)
    (hy : Digits 4 year) (hmo : Digits 2 month) (hd : Digits 2 day) (hh : Digits 2 hour)
    (hmi : Digits 2 min) (hs : Digits 2 sec)
    (h1 : IsSeparator s1) (h2 : IsSeparator s2) (h3 : IsSeparator s3) (h4 : IsSeparator s4)
    (h5 : IsSeparator s5) :
    resolveDate env cfg curFilepath
        (pre ++ (year ++ (s1 ++ (month ++ (s2 ++ (day ++ (s3 ++ (hour ++
          (s4 ++ (min ++ (s5 ++ (sec ++ post)))))))))))) curFileInfo
      = .ok (if cfg.timezoneSource = timezoneSourceCustom then
              (Date env (digitsVal year) (digitsVal month) (digitsVal day) (digitsVal hour)
                (digitsVal min) (digitsVal sec) 0 .utc).In cfg.timezoneCustom
            else
              Date env (digitsVal year) (digitsVal month) (digitsVal day) (digitsVal hour)
                (digitsVal min) (digitsVal sec) 0 .utc,
            "dn".toList) := by
  rw [resolveDate_of_filename env cfg curFilepath _ curFileInfo _ he
    (parseDateFromFilename_of_match env _ year month day hour min sec
      (dateInFilenameRep_date pre year s1 month s2 day s3 hour s4 min s5 sec post
        hpre hpost hy hmo hd hh hmi hs h1 h2 h3 h4 h5) hy hmo hd hh hmi hs)]
  unfold applyTimezone
  by_cases hc : cfg.timezoneSource = timezoneSourceCustom
  · have hne : ¬ "dn".toList = "dmz".toList := by decide
    simp [hc, hne]
  · simp [hc]

/-- An instance of the reading: the name `IMG 2023-01-15 10.30.00`. -/
theorem resolveDate_date_in_filename_witness :
    processExif (sampleEnv (oneRecord [])) "/d/IMG 2023-01-15 10.30.00.jpg".toList
      = .error Err.errDateTakenInExifNotFound
    ∧ "IMG ".toList ++ ("2023".toList ++ ("-".toList ++ ("01".toList ++ ("-".toList ++
        ("15".toList ++ (" ".toList ++ ("10".toList ++ (".".toList ++ ("30".toList ++
        (".".toList ++ ("00".toList ++ []))))))))))) = "IMG 2023-01-15 10.30.00".toList
    ∧ resolveDate (sampleEnv (oneRecord [])) (sampleConfig actionPrint)
        "/d/IMG 2023-01-15 10.30.00.jpg".toList
        ("IMG ".toList ++ ("2023".toList ++ ("-".toList ++ ("01".toList ++ ("-".toList ++
          ("15".toList ++ (" ".toList ++ ("10".toList ++ (".".toList ++ ("30".toList ++
          (".".toList ++ ("00".toList ++ []))))))))))))
        sampleFileInfo
      = .ok (Date (sampleEnv []) 2023 1 15 10 30 0 0 .utc, "dn".toList) :=
  ⟨by decide, by decide,
    (resolveDate_date_in_filename (sampleEnv (oneRecord [])) (sampleConfig actionPrint)
      "/d/IMG 2023-01-15 10.30.00.jpg".toList sampleFileInfo
      "IMG ".toList "2023".toList "-".toList "01".toList "-".toList "15".toList " ".toList
      "10".toList ".".toList "30".toList ".".toList "00".toList []
      (by decide) (by decide) (by decide) (by decide) (by decide) (by decide) (by decide)
      (by decide) (by decide)
      (Or.inr ⟨'-', rfl, by decide, by decide⟩) (Or.inr ⟨'-', rfl, by decide, by decide⟩)
      (Or.inr ⟨' ', rfl, by decide, by decide⟩) (Or.inr ⟨'.', rfl, by decide, by decide⟩)
      (Or.inr ⟨'.', rfl, by decide, by decide⟩)).trans (by decide)⟩

/-- C11, at the failing input: the file `PXL_20230115_103000123.jpg` with one metadata
record without date. The original filename holds the date 2023-01-15 10:30:00 as the
groups `2023`, `01`, `15`, `10`, `30`, `00`, with one separator `_`, followed by three
more digits. The separator `.?` of `dateInFilenameRep` also matches a digit: the
leftmost match takes `3` and `0` for separators and gives the groups `10`, `00`, `12`,
so that the date is resolved as 2023-01-15 10:00:12 with the tag `dn` and the new name
is `2023.01.15 10.00.12.dn (PXL_20230115_103000123).jpg`. The name
`IMG 2023-01-15 10.30.00` of the claim resolves to 2023-01-15 10:30:00. -/
theorem dateInFilename_digit_as_separator :
    dateInFilenameRep "PXL_20230115_103000123".toList
      = [[], "2023".toList, "01".toList, "15".toList, "10".toList, "00".toList, "12".toList]
    ∧ resolveDate (sampleEnv (oneRecord [])) (sampleConfig actionPrint)
        "/d/PXL_20230115_103000123.jpg".toList "PXL_20230115_103000123".toList sampleFileInfo
      = .ok (Date (sampleEnv []) 2023 1 15 10 0 12 0 .utc, "dn".toList)
    ∧ Date (sampleEnv []) 2023 1 15 10 0 12 0 .utc
      ≠ Date (sampleEnv []) 2023 1 15 10 30 0 0 .utc
    ∧ walkFn (sampleEnv (oneRecord [])) (sampleConfig actionPrint) zeroCounters
        "/d/PXL_20230115_103000123.jpg".toList sampleFileInfo none
      = .returned
        { counters := ⟨1, 1, 0, 0, 1⟩,
          out := [Out.arrow "PXL_20230115_103000123.jpg".toList
                    "2023.01.15 10.00.12.dn (PXL_20230115_103000123).jpg".toList,
                  Out.printing, Out.newline],
          renamed := none, err := none, decision := some Decision.printOnly }
    ∧ resolveDate (sampleEnv (oneRecord [])) (sampleConfig actionPrint)
        "/d/IMG 2023-01-15 10.30.00.jpg".toList "IMG 2023-01-15 10.30.00".toList
        sampleFileInfo
      = .ok (Date (sampleEnv []) 2023 1 15 10 30 0 0 .utc, "dn".toList) := by
  refine ⟨?_, ?_, ?_, ?_, ?_⟩ <;> decide

/-! ## The modification time -/

theorem timezoneRep_eval (sign hour min : Str)
    (hs : sign = [] ∨ sign = ['+'] ∨ sign = ['-'])
    (hh : Digits 2 hour) (hm : Digits 2 min) :
    timezoneRep (sign ++ (hour ++ ':' :: min))
      = [sign ++ (hour ++ ':' :: min), sign, hour, min] := by
  have hmin : digitsN 2 min = some (min, []) := by
    have := digitsN_append 2 min [] hm
    simpa using this
  have htail : ((digitsN 2 (hour ++ ':' :: min)).bind fun h =>
      (lit ':' h.2).bind fun s1 =>
        ((digitsN 2 s1).bind fun m =>
          if m.2 = [] then some [sign ++ (hour ++ ':' :: min), sign, h.1, m.1]
          else none).orElse fun _ =>
        if s1 = [] then some [sign ++ (hour ++ ':' :: min), sign, h.1, []] else none)
      = some [sign ++ (hour ++ ':' :: min), sign, hour, min] := by
    simp [digitsN_append 2 hour _ hh, lit_cons, hmin, Option.orElse]
  unfold timezoneRep
  rcases hs with rfl | rfl | rfl
  · obtain ⟨hlen, hdig⟩ := hh
    match hour, hlen, hdig, htail with
    | [a, b], _, hdig, htail =>
      have ha : isDigit a = true := hdig a (by simp)
      have hp : a ≠ '+' := by
        rintro rfl
        revert ha
        decide
      have hn : a ≠ '-' := by
        rintro rfl
        revert ha
        decide
      simp only [List.nil_append, List.cons_append] at htail ⊢
      split
      · rename_i heq
        exact absurd (List.cons.inj heq).1 hp
      · rename_i heq
        exact absurd (List.cons.inj heq).1 hn
      · simpa using congrArg (fun o => Option.getD o []) htail
  · simpa using congrArg (fun o => Option.getD o []) htail
  · simpa using congrArg (fun o => Option.getD o []) htail

theorem parseTimezone_eval (sign hour min : Str)
    (hs : sign = [] ∨ sign = ['+'] ∨ sign = ['-'])
    (hh : Digits 2 hour) (hm : Digits 2 min) :
    parseTimezone (sign ++ (hour ++ ':' :: min))
      = .ok (Location.fixed (sign ++ (hour ++ ':' :: min))
          ((if sign = ['-'] then -1 else 1) * (digitsVal hour : Int) * 60
            * (digitsVal min : Int))) := by
  have hsign : parseField (sign ++ ['1']) 32 "parse timezoneSign"
      = .ok (if sign = ['-'] then -1 else 1) := by
    rcases hs with rfl | rfl | rfl <;> decide
  unfold parseTimezone
  simp only [timezoneRep_eval sign hour min hs hh hm]
  simp [index, Outcome.bind, hsign, parseField_digits 2 hour _ hh,
    parseField_digits 2 min _ hm]

/-- C20, as the code has it. For every specification made of an optional sign, two
digits of hours, a colon and two digits of minutes, `parseTimezone` returns the fixed
zone named by the specification whose offset is the product sign * HH * 60 * MM (the
sign is +1 when omitted): hours and minutes are multiplied, not added. The zone takes
that number in seconds: the wall clock of an instant in the zone is the instant plus
the product, both in seconds. -/
theorem parseTimezone_product_in_seconds (env : Env) (t : Time) (sign hour min : Str)
    (hs : sign = [] ∨ sign = ['+'] ∨ sign = ['-'])
    (hh : Digits 2 hour) (hm : Digits 2 min) :
    parseTimezone (sign ++ (hour ++ ':' :: min))
      = .ok (Location.fixed (sign ++ (hour ++ ':' :: min))
          ((if sign = ['-'] then -1 else 1) * (digitsVal hour : Int) * 60
            * (digitsVal min : Int)))
    ∧ (t.In (Location.fixed (sign ++ (hour ++ ':' :: min))
          ((if sign = ['-'] then -1 else 1) * (digitsVal hour : Int) * 60
            * (digitsVal min : Int)))).abs env
        = t.sec + (if sign = ['-'] then -1 else 1) * (digitsVal hour : Int) * 60
            * (digitsVal min : Int) := by
  refine ⟨parseTimezone_eval sign hour min hs hh hm, ?_⟩
  simp [Time.abs, Time.In, Location.offsetAt]

/-- C20, witness: the specification `-05:30` gives the offset -1 * 5 * 60 * 30. -/
theorem parseTimezone_product_in_seconds_witness :
    parseTimezone "-05:30".toList = .ok (Location.fixed "-05:30".toList (-9000)) :=
  (parseTimezone_product_in_seconds (sampleEnv []) sampleFileInfo.ModTime
    ['-'] "05".toList "30".toList (by decide) (by decide) (by decide)).1.trans (by decide)

/-- C20, counterexample: the specification `+01:30` gives the offset 1 * 1 * 60 * 30 =
1800, and the zone counts it in seconds: the instant 2022-06-01 14:22:10 UTC is named
`2022.06.01 14.52.10` in that zone, thirty minutes later, where 1800 minutes would make
it `2022.06.02 20.22.10`. -/
theorem parseTimezone_product_not_minutes :
    parseTimezone "+01:30".toList = .ok (Location.fixed "+01:30".toList 1800)
    ∧ getNewFilename (sampleEnv [])
        ((Date (sampleEnv []) 2022 6 1 14 22 10 0 .utc).In (Location.fixed "+01:30".toList 1800))
        "da".toList "a".toList = "2022.06.01 14.52.10.da (a)".toList
    ∧ getNewFilename (sampleEnv [])
        ((Date (sampleEnv []) 2022 6 1 14 22 10 0 .utc).In (Location.fixed "+01:30".toList (1800 * 60)))
        "da".toList "a".toList = "2022.06.02 20.22.10.da (a)".toList := by
  refine ⟨?_, ?_, ?_⟩ <;> decide

end Rename
